import Mathlib

/-!
The handler and service layer of notes_system / note_service.

A shallow embedding of `note_service/app/internal/note/service.go` and
`note_service/app/internal/note/handler.go`.

* Go's `error` interface value is `Option GoError` (`none` is `nil`).
* A Go function returning `(T, error)` returns a pair `T × Option GoError`:
  the source returns both components on every path.
* `Storage` and `Service` are Go interfaces.  They are records of functions over
  an explicit state; every call made through them is appended to a call log, so
  that "is never called" and "is called with" are statements about that log.
* `context.Context` and the logger are not modelled: no modelled result depends
  on them.
* A handler that reads the route parameters returns an `Option`: `none` is a
  panic at the unchecked type assertion on the request context.
-/

set_option autoImplicit false

/-! ## Errors -/

/-- Modelled from the spec: the package `apperror` (sentinel `ErrNotFound`,
constructor `BadRequestError`) is not part of the sources.  Section 7 of the spec
gives the taxonomy: a not-found sentinel tested by identity, bad-request errors
carrying a message, and every other failure.  The remaining two constructors are
standard library errors: `wrapError` is the value built by `fmt.Errorf` with a
`%w` verb (its formatted message and the wrapped error), `errorString` is any
leaf error with a message, such as a storage-driver or JSON decoding error. -/
inductive GoError where
  | notFound
  | badRequest (message : String)
  | wrapError (msg : String) (err : GoError)
  | errorString (s : String)
  deriving DecidableEq, Repr, Inhabited

namespace GoError

/-- The method `Error()`: the message text of an error. -/
def Error : GoError → String
  | notFound => "not found"
  | badRequest message => message
  | wrapError msg _ => msg
  | errorString s => s

/-- The method `Unwrap()`: only `fmt.Errorf` values wrap another error. -/
def Unwrap : GoError → Option GoError
  | wrapError _ err => some err
  | _ => none

end GoError

namespace apperror

/-- Modelled from the spec: the sentinel `apperror.ErrNotFound`. -/
def ErrNotFound : GoError := GoError.notFound

/-- Modelled from the spec: `apperror.BadRequestError(message)`. -/
def BadRequestError (message : String) : GoError := GoError.badRequest message

/-- An error value is a bad-request error when it was built by `BadRequestError`. -/
def isBadRequest : GoError → Bool
  | GoError.badRequest _ => true
  | _ => false

end apperror

namespace errors

/-- The function `errors.Is(err, target)`: walk the `Unwrap` chain of `err` and
compare each link with `target`. -/
def Is : GoError → GoError → Bool
  | GoError.wrapError msg err, target =>
      if GoError.wrapError msg err = target then true else Is err target
  | err, target => decide (err = target)

end errors

namespace fmt

/-- The call `fmt.Errorf(text + "%w", err)`: the message is the text followed by
`err.Error()`, and the result unwraps to `err`. -/
def Errorf (text : String) (err : GoError) : GoError :=
  GoError.wrapError (text ++ err.Error) err

end fmt

/-! ## Data model -/

/-- Modelled from the spec: the persisted `Note` entity of section 3 (its Go
declaration is not part of the sources); the two storage timestamps are left
out, no modelled operation reads them. -/
structure Note where
  UUID : String
  Header : String
  Body : String
  ShortBody : String
  CategoryUUID : String
  Tags : List String
  deriving DecidableEq, Repr, Inhabited

/-- Modelled from the spec: `CreateNoteDTO` of section 3; `ShortBody` is the
server-computed field, never read from the request. -/
structure CreateNoteDTO where
  Header : String
  Body : String
  ShortBody : String
  CategoryUUID : String
  Tags : List String
  deriving DecidableEq, Repr, Inhabited

/-- Modelled from the spec: `UpdateNoteDTO` of section 3, every field optional
(`service.Update` reads `Body`, `Header`, `CategoryUUID`; the handler reads
`Tags`). -/
structure UpdateNoteDTO where
  Header : String
  Body : String
  CategoryUUID : String
  Tags : List String
  deriving DecidableEq, Repr, Inhabited

/-! ## Storage interface -/

/-- One call through the `Storage` interface, with its arguments. -/
inductive StorageCall where
  | Create (dto : CreateNoteDTO)
  | FindOne (uuid : String)
  | FindByCategoryUUID (uuid : String)
  | Update (uuid : String) (dto : UpdateNoteDTO) (tagsUpdate : Bool)
  | Delete (uuid : String)
  deriving DecidableEq, Repr

/-- The interface `Storage` consumed by the service, over a store state `σ`. -/
structure Storage (σ : Type) where
  Create : σ → CreateNoteDTO → (String × Option GoError) × σ
  FindOne : σ → String → (Note × Option GoError) × σ
  FindByCategoryUUID : σ → String → (List Note × Option GoError) × σ
  Update : σ → String → UpdateNoteDTO → Bool → Option GoError × σ
  Delete : σ → String → Option GoError × σ

/-- What the service acts on: the store behind the `Storage` interface and the
log of the calls made through it. -/
structure StorageWorld (σ : Type) where
  store : σ
  calls : List StorageCall

/-- Record one storage call and the store it leaves. -/
def StorageWorld.after {σ : Type} (w : StorageWorld σ) (c : StorageCall) (store : σ) :
    StorageWorld σ :=
  { store := store, calls := w.calls ++ [c] }

/-! ## service.go -/

/-- The struct `service`: the storage it delegates to.  `GenerateShortBody` is the
method of `CreateNoteDTO` called by `Create`; it is declared outside the sources
and is taken as given. -/
structure service (σ : Type) where
  storage : Storage σ
  GenerateShortBody : CreateNoteDTO → CreateNoteDTO

namespace service

variable {σ : Type}

/-- The shared tail of every method: `if err != nil { if errors.Is(err,
apperror.ErrNotFound) { return err }; return fmt.Errorf(text + "%w", err) }`. -/
def classify (text : String) : Option GoError → Option GoError
  | none => none
  | some err =>
      if errors.Is err apperror.ErrNotFound then some err
      else some (fmt.Errorf text err)

/-- The method `service.Create`. -/
def Create (s : service σ) (w : StorageWorld σ) (dto : CreateNoteDTO) :
    (String × Option GoError) × StorageWorld σ :=
  let dto := s.GenerateShortBody dto
  let r := s.storage.Create w.store dto
  let w := w.after (StorageCall.Create dto) r.2
  ((r.1.1, classify "failed to create note. error: " r.1.2), w)

/-- The method `service.GetOne`. -/
def GetOne (s : service σ) (w : StorageWorld σ) (uuid : String) :
    (Note × Option GoError) × StorageWorld σ :=
  let r := s.storage.FindOne w.store uuid
  let w := w.after (StorageCall.FindOne uuid) r.2
  ((r.1.1, classify "failed to find note by uuid. error: " r.1.2), w)

/-- The method `service.GetByCategoryUUID`. -/
def GetByCategoryUUID (s : service σ) (w : StorageWorld σ) (uuid : String) :
    (List Note × Option GoError) × StorageWorld σ :=
  let r := s.storage.FindByCategoryUUID w.store uuid
  let w := w.after (StorageCall.FindByCategoryUUID uuid) r.2
  match r.1.2 with
  | some err => ((r.1.1, classify "failed to get notes by ids. error: " (some err)), w)
  | none =>
      if r.1.1.length = 0 then ((r.1.1, some apperror.ErrNotFound), w)
      else ((r.1.1, none), w)

/-- The method `service.Update`. -/
def Update (s : service σ) (w : StorageWorld σ) (uuid : String) (dto : UpdateNoteDTO)
    (tagsUpdate : Bool) : Option GoError × StorageWorld σ :=
  if dto.Body = "" ∧ dto.Header = "" ∧ dto.CategoryUUID = "" ∧ tagsUpdate = false then
    (some (apperror.BadRequestError "nothing to update"), w)
  else
    let r := s.storage.Update w.store uuid dto tagsUpdate
    let w := w.after (StorageCall.Update uuid dto tagsUpdate) r.2
    (classify "failed to update note. error: " r.1, w)

/-- The method `service.Delete`. -/
def Delete (s : service σ) (w : StorageWorld σ) (uuid : String) :
    Option GoError × StorageWorld σ :=
  let r := s.storage.Delete w.store uuid
  let w := w.after (StorageCall.Delete uuid) r.2
  (classify "failed to delete note. error: " r.1, w)

end service

/-! ## encoding/json, as far as the handlers use it -/

namespace json

/-- A JSON text after scanning: the value it denotes.  Object members keep their
order and their duplicates.  A number keeps its literal, together with whether
`strconv.ParseFloat(lit, 64)` accepts it: a literal beyond the range of a
`float64`, such as `1e999`, has `inRange = false`. -/
inductive Value where
  | null
  | bool (b : Bool)
  | number (lit : String) (inRange : Bool)
  | string (s : String)
  | array (elems : List Value)
  | object (members : List (String × Value))

/-- The word `encoding/json` uses for a value in an `UnmarshalTypeError`. -/
def Value.kind : Value → String
  | Value.null => "null"
  | Value.bool _ => "bool"
  | Value.number _ _ => "number"
  | Value.string _ => "string"
  | Value.array _ => "array"
  | Value.object _ => "object"

/-- The members of a JSON object; any other value has none. -/
def Value.members : Value → List (String × Value)
  | Value.object members => members
  | _ => []

/-- The error `*json.UnmarshalTypeError` for a value that is not inside a struct
field: a JSON value of the wrong kind for the Go type it is stored into. -/
def UnmarshalTypeError (value goType : String) : GoError :=
  GoError.errorString ("json: cannot unmarshal " ++ value ++ " into Go value of type " ++ goType)

/-- The error `*json.UnmarshalTypeError` for a value inside the struct field
`field` (written `Struct.name`). -/
def UnmarshalFieldTypeError (value field goType : String) : GoError :=
  GoError.errorString
    ("json: cannot unmarshal " ++ value ++ " into Go struct field " ++ field ++ " of type "
      ++ goType)

/-- Case folding of one rune of an object key.  `encoding/json` folds each rune to
the least member of its Unicode simple-folding orbit; the orbits that contain an
ASCII letter are upper/lower case, plus U+017F (long s) with `s` and U+212A
(Kelvin sign) with `k`.  Other runes are left alone here: they never fold onto an
ASCII rune, so this agrees with the library on whether a key matches an ASCII
field name. -/
def foldRune (c : Char) : Char :=
  if c = Char.ofNat 0x17F then 'S'
  else if c = Char.ofNat 0x212A then 'K'
  else c.toUpper

/-- Case folding of an object key or field name. -/
def foldName (s : String) : String :=
  String.mk (s.data.map foldRune)

/-- A key selects the struct field with JSON name `name` on an exact or
case-insensitive match (the four field names below fold to different names, so
the library's preference for an exact match never changes the field found). -/
def matchesField (key name : String) : Bool :=
  decide (foldName key = foldName name)

/-- Store a JSON value into a Go `string` holding `cur`, inside the struct field
`field`: `null` leaves it, a JSON string replaces it, any other value is a type
error. -/
def storeString (field : String) (cur : String) : Value → Except GoError String
  | Value.null => Except.ok cur
  | Value.string s => Except.ok s
  | v => Except.error (UnmarshalFieldTypeError v.kind field "string")

/-- Store the elements of a JSON array, in order, into the elements of a slice's
backing array `old` (an element past the end of `old` is a zero string): the
decoder grows the slice one element at a time over its old backing array, so a
`null` element leaves the string it meets there. -/
def storeElems (field : String) : List Value → List String → Except GoError (List String)
  | [], _ => Except.ok []
  | v :: rest, old =>
      match storeString field (old.headD "") v with
      | Except.error err => Except.error err
      | Except.ok s =>
          match storeElems field rest old.tail with
          | Except.error err => Except.error err
          | Except.ok ss => Except.ok (s :: ss)

/-- A Go `[]string` while it is decoded into: its elements, and the strings its
backing array still holds past its length. -/
structure StringSlice where
  elems : List String
  spare : List String
  deriving DecidableEq, Repr

/-- Store a JSON value into a Go `[]string` inside the struct field `field`:
`null` gives the nil slice, an empty array a new empty slice, a non-empty array
is stored over the backing array and the slice is cut to its length; any other
value is a type error. -/
def storeStrings (field : String) (cur : StringSlice) : Value → Except GoError StringSlice
  | Value.null => Except.ok ⟨[], []⟩
  | Value.array elems =>
      match elems with
      | [] => Except.ok ⟨[], []⟩
      | _ :: _ =>
          match storeElems field elems (cur.elems ++ cur.spare) with
          | Except.error err => Except.error err
          | Except.ok ss => Except.ok ⟨ss, (cur.elems ++ cur.spare).drop elems.length⟩
  | v => Except.error (UnmarshalFieldTypeError v.kind field "[]string")

/-- Store the members of a JSON object one after the other, in order, with the
given per-member store; the first type error is the error returned. -/
def storeMembers {α : Type} (store : α → String → Value → Except GoError α) :
    List (String × Value) → α → Except GoError α
  | [], a => Except.ok a
  | (key, v) :: rest, a =>
      match store a key v with
      | Except.error err => Except.error err
      | Except.ok a => storeMembers store rest a

/-- Store one object member into an `UpdateNoteDTO` (carried with the spare
strings of its tags slice); a key matching no field is skipped, its value is not
looked at. -/
def storeUpdateField (st : UpdateNoteDTO × List String) (key : String) (v : Value) :
    Except GoError (UpdateNoteDTO × List String) :=
  if matchesField key "header" then
    (storeString "UpdateNoteDTO.header" st.1.Header v).map fun s =>
      ({ st.1 with Header := s }, st.2)
  else if matchesField key "body" then
    (storeString "UpdateNoteDTO.body" st.1.Body v).map fun s => ({ st.1 with Body := s }, st.2)
  else if matchesField key "category_uuid" then
    (storeString "UpdateNoteDTO.category_uuid" st.1.CategoryUUID v).map fun s =>
      ({ st.1 with CategoryUUID := s }, st.2)
  else if matchesField key "tags" then
    (storeStrings "UpdateNoteDTO.tags" ⟨st.1.Tags, st.2⟩ v).map fun sl =>
      ({ st.1 with Tags := sl.elems }, sl.spare)
  else Except.ok st

/-- Store one object member into a `CreateNoteDTO` (carried with the spare strings
of its tags slice); a key matching no field is skipped (`ShortBody` has no JSON
name). -/
def storeCreateField (st : CreateNoteDTO × List String) (key : String) (v : Value) :
    Except GoError (CreateNoteDTO × List String) :=
  if matchesField key "header" then
    (storeString "CreateNoteDTO.header" st.1.Header v).map fun s =>
      ({ st.1 with Header := s }, st.2)
  else if matchesField key "body" then
    (storeString "CreateNoteDTO.body" st.1.Body v).map fun s => ({ st.1 with Body := s }, st.2)
  else if matchesField key "category_uuid" then
    (storeString "CreateNoteDTO.category_uuid" st.1.CategoryUUID v).map fun s =>
      ({ st.1 with CategoryUUID := s }, st.2)
  else if matchesField key "tags" then
    (storeStrings "CreateNoteDTO.tags" ⟨st.1.Tags, st.2⟩ v).map fun sl =>
      ({ st.1 with Tags := sl.elems }, sl.spare)
  else Except.ok st

/-- Decode a JSON value into a zero `UpdateNoteDTO` (`var noteDTO UpdateNoteDTO`):
`null` leaves it, an object stores its members, anything else is a type error. -/
def decodeUpdateNoteDTO : Value → Except GoError UpdateNoteDTO
  | Value.null => Except.ok ⟨"", "", "", []⟩
  | Value.object members =>
      (storeMembers storeUpdateField members (⟨"", "", "", []⟩, [])).map fun st => st.1
  | v => Except.error (UnmarshalTypeError v.kind "note.UpdateNoteDTO")

/-- Decode a JSON value into a zero `CreateNoteDTO` (`var crNote CreateNoteDTO`). -/
def decodeCreateNoteDTO : Value → Except GoError CreateNoteDTO
  | Value.null => Except.ok ⟨"", "", "", "", []⟩
  | Value.object members =>
      (storeMembers storeCreateField members (⟨"", "", "", "", []⟩, [])).map fun st => st.1
  | v => Except.error (UnmarshalTypeError v.kind "note.CreateNoteDTO")

mutual

/-- The first number of a value, in document order, that does not fit a
`float64`, as the error its conversion raises: decoding into `interface{}`
converts every number with `strconv.ParseFloat`. -/
def rangeError : Value → Option GoError
  | Value.number lit false => some (UnmarshalTypeError ("number " ++ lit) "float64")
  | Value.array elems => rangeErrorElems elems
  | Value.object members => rangeErrorMembers members
  | _ => none

/-- The first range error among the elements of an array. -/
def rangeErrorElems : List Value → Option GoError
  | [] => none
  | v :: rest =>
      match rangeError v with
      | some err => some err
      | none => rangeErrorElems rest

/-- The first range error among the member values of an object. -/
def rangeErrorMembers : List (String × Value) → Option GoError
  | [] => none
  | (_, v) :: rest =>
      match rangeError v with
      | some err => some err
      | none => rangeErrorMembers rest

end

/-- Decode a JSON value into a nil `map[string]interface{}`, kept as its member
list: `null` leaves the nil map; an object gives its members, unless one of its
numbers does not fit a `float64`; anything else is a type error. -/
def decodeMap : Value → Except GoError (List (String × Value))
  | Value.null => Except.ok []
  | Value.object members =>
      match rangeErrorMembers members with
      | some err => Except.error err
      | none => Except.ok members
  | v => Except.error (UnmarshalTypeError v.kind "map[string]interface {}")

/-- The test `_, ok := data[key]` on a decoded map. -/
def hasKey (data : List (String × Value)) (key : String) : Bool :=
  data.any fun kv => decide (kv.1 = key)

/-- A JSON value a Go `string` field takes: `null` or a string. -/
def fitsString : Value → Bool
  | Value.null => true
  | Value.string _ => true
  | _ => false

/-- A JSON value a Go `[]string` field takes: `null`, or an array of values a
`string` takes. -/
def fitsStrings : Value → Bool
  | Value.null => true
  | Value.array elems => elems.all fitsString
  | _ => false

/-- An object member a note DTO takes: under a key matching `header`, `body` or
`category_uuid` a value a `string` takes, under a key matching `tags` a value a
`[]string` takes, under any other key anything. -/
def fitsNoteField (key : String) (v : Value) : Bool :=
  if matchesField key "header" then fitsString v
  else if matchesField key "body" then fitsString v
  else if matchesField key "category_uuid" then fitsString v
  else if matchesField key "tags" then fitsStrings v
  else true

/-- A JSON value that encodes a note DTO (`CreateNoteDTO` or `UpdateNoteDTO`, which
have the same JSON fields): `null`, or an object all of whose members the DTO
takes. -/
def fitsNoteDTO : Value → Bool
  | Value.null => true
  | Value.object members => members.all fun kv => fitsNoteField kv.1 kv.2
  | _ => false

end json

/-! ## net/http, as far as the handlers use it -/

/-- The bytes of a request body, as `encoding/json` sees them: they do not begin
with a JSON value (`err` is the syntax error reported); or they are the text of
one JSON value; or they are the text of a JSON value followed by further bytes,
which `json.Unmarshal` rejects with the syntax error `err` and which a
`json.Decoder` does not look at. -/
inductive Payload where
  | malformed (err : GoError)
  | text (v : json.Value)
  | trailing (v : json.Value) (err : GoError)

/-- The request body as a reader: either all its bytes can be read, or reading
fails with `err`, after the bytes of a first JSON value (`first`) or before any
such value is complete. -/
inductive Body where
  | read (bytes : Payload)
  | failed (err : GoError) (first : Option json.Value)

/-- The JSON value a `json.Decoder` reads first from the body: it stops at the end
of that value, so neither bytes nor a read failure after it are seen. -/
def Body.firstValue : Body → Option json.Value
  | Body.read (Payload.malformed _) => none
  | Body.read (Payload.text v) => some v
  | Body.read (Payload.trailing v _) => some v
  | Body.failed _ first => first

/-- An inbound request: the route parameters the router put in its context
(`none` when the context holds no `httprouter.Params` value), its URL query, and
its body. -/
structure Request where
  params : Option (List (String × String))
  query : List (String × String)
  body : Body

/-- The lookups `httprouter.Params.ByName` and `url.Values.Get`: the first value
under the name, or the empty string. -/
def lookupFirst (kvs : List (String × String)) (name : String) : String :=
  match kvs.find? fun kv => decide (kv.1 = name) with
  | some kv => kv.2
  | none => ""

/-- A response writer: its header map, and the `WriteHeader` and `Write` calls it
has received, in order. -/
structure ResponseWriter where
  header : List (String × String)
  statuses : List Nat
  written : List String
  deriving DecidableEq, Repr

namespace ResponseWriter

/-- The call `w.Header().Set(key, value)`: replace the values under `key`. -/
def setHeader (w : ResponseWriter) (key value : String) : ResponseWriter :=
  { w with header := (w.header.filter fun kv => !decide (kv.1 = key)) ++ [(key, value)] }

/-- The call `w.Header().Get(key)`, with absence kept apart from the empty value. -/
def getHeader (w : ResponseWriter) (key : String) : Option String :=
  (w.header.find? fun kv => decide (kv.1 = key)).map fun kv => kv.2

/-- The call `w.WriteHeader(code)`. -/
def WriteHeader (w : ResponseWriter) (code : Nat) : ResponseWriter :=
  { w with statuses := w.statuses ++ [code] }

/-- The call `w.Write(bytes)`. -/
def Write (w : ResponseWriter) (bytes : String) : ResponseWriter :=
  { w with written := w.written ++ [bytes] }

end ResponseWriter

/-- The call `ioutil.ReadAll(r.Body)`. -/
def ioutil.ReadAll (r : Request) : Except GoError Payload :=
  match r.body with
  | Body.read bytes => Except.ok bytes
  | Body.failed err _ => Except.error err

/-- The call `json.Unmarshal(bodyBytes, &noteDTO)` on a zero `UpdateNoteDTO`: the
bytes must be the text of exactly one JSON value. -/
def json.UnmarshalUpdateNoteDTO : Payload → Except GoError UpdateNoteDTO
  | Payload.malformed err => Except.error err
  | Payload.trailing _ err => Except.error err
  | Payload.text v => json.decodeUpdateNoteDTO v

/-- The call `json.Unmarshal(bodyBytes, &data)` on a nil `map[string]interface{}`. -/
def json.UnmarshalMap : Payload → Except GoError (List (String × json.Value))
  | Payload.malformed err => Except.error err
  | Payload.trailing _ err => Except.error err
  | Payload.text v => json.decodeMap v

/-- The call `json.NewDecoder(r.Body).Decode(&crNote)` on a zero `CreateNoteDTO`:
the decoder reads the first JSON value of the body and decodes it; it fails when
no such value can be read, or when the value has the wrong type.  (The error of
the first case is not that of `json.Unmarshal` in general; `CreateNote` drops
it.) -/
def json.DecodeCreateNoteDTO (r : Request) : Except GoError CreateNoteDTO :=
  match r.body with
  | Body.read (Payload.malformed err) => Except.error err
  | Body.read (Payload.text v) => json.decodeCreateNoteDTO v
  | Body.read (Payload.trailing v _) => json.decodeCreateNoteDTO v
  | Body.failed err none => Except.error err
  | Body.failed _ (some v) => json.decodeCreateNoteDTO v

/-! ## handler.go -/

/-- The constant `notesURL`. -/
def notesURL : String := "/api/notes"

/-- The constant `noteURL`. -/
def noteURL : String := "/api/notes/:uuid"

/-- One call through the `Service` interface, with its arguments. -/
inductive ServiceCall where
  | Create (dto : CreateNoteDTO)
  | GetOne (uuid : String)
  | GetByCategoryUUID (uuid : String)
  | Update (uuid : String) (dto : UpdateNoteDTO) (tagsUpdate : Bool)
  | Delete (uuid : String)
  deriving DecidableEq, Repr

/-- The interface `Service` held by the handler, over a state `τ`. -/
structure Service (τ : Type) where
  Create : τ → CreateNoteDTO → (String × Option GoError) × τ
  GetOne : τ → String → (Note × Option GoError) × τ
  GetByCategoryUUID : τ → String → (List Note × Option GoError) × τ
  Update : τ → String → UpdateNoteDTO → Bool → Option GoError × τ
  Delete : τ → String → Option GoError × τ

/-- The `service` struct implements `Service` (`var _ Service = &service{}`). -/
def service.toService {σ : Type} (s : service σ) : Service (StorageWorld σ) :=
  { Create := s.Create
    GetOne := s.GetOne
    GetByCategoryUUID := s.GetByCategoryUUID
    Update := s.Update
    Delete := s.Delete }

/-- What a handler acts on: the state behind the `Service` interface and the log
of the calls made through it. -/
structure ServiceWorld (τ : Type) where
  state : τ
  calls : List ServiceCall

/-- Record one service call and the state it leaves. -/
def ServiceWorld.after {τ : Type} (t : ServiceWorld τ) (c : ServiceCall) (state : τ) :
    ServiceWorld τ :=
  { state := state, calls := t.calls ++ [c] }

/-- What a handler leaves behind when it returns: the error it returns to the
middleware, the response writer, and the service side. -/
structure Outcome (τ : Type) where
  err : Option GoError
  w : ResponseWriter
  world : ServiceWorld τ

/-- The struct `Handler`.  The two `json.Marshal` calls (on a `Note` and on a
`[]Note`) are taken as given: the encoding of `Note` is declared outside the
sources. -/
structure Handler (τ : Type) where
  NoteService : Service τ
  MarshalNote : Note → Except GoError String
  MarshalNotes : List Note → Except GoError String

namespace Handler

variable {τ : Type}

/-- The method `Handler.GetNote`.  The result is `none` when the handler does not
return: the type assertion `.(httprouter.Params)` panics on a context without
route parameters. -/
def GetNote (h : Handler τ) (w : ResponseWriter) (r : Request) (t : ServiceWorld τ) :
    Option (Outcome τ) :=
  let w := w.setHeader "Content-Type" "application/json"
  match r.params with
  | none => none
  | some params =>
      let noteUUID := lookupFirst params "uuid"
      if noteUUID = "" then
        some ⟨some (apperror.BadRequestError
          "uuid query parameter is required and must be a comma separated integers"), w, t⟩
      else
        let res := h.NoteService.GetOne t.state noteUUID
        let t := t.after (ServiceCall.GetOne noteUUID) res.2
        match res.1.2 with
        | some err => some ⟨some err, w, t⟩
        | none =>
            match h.MarshalNote res.1.1 with
            | Except.error err => some ⟨some err, w, t⟩
            | Except.ok noteBytes => some ⟨none, (w.WriteHeader 200).Write noteBytes, t⟩

/-- The method `Handler.GetNotesByCategory`. -/
def GetNotesByCategory (h : Handler τ) (w : ResponseWriter) (r : Request)
    (t : ServiceWorld τ) : Outcome τ :=
  let w := w.setHeader "Content-Type" "application/json"
  let categoryUUID := lookupFirst r.query "category_uuid"
  if categoryUUID = "" then
    ⟨some (apperror.BadRequestError
      "category_uuid query parameter is required and must be a comma separated integers"),
      w, t⟩
  else
    let res := h.NoteService.GetByCategoryUUID t.state categoryUUID
    let t := t.after (ServiceCall.GetByCategoryUUID categoryUUID) res.2
    match res.1.2 with
    | some err => ⟨some err, w, t⟩
    | none =>
        match h.MarshalNotes res.1.1 with
        | Except.error err => ⟨some err, w, t⟩
        | Except.ok notesBytes => ⟨none, (w.WriteHeader 200).Write notesBytes, t⟩

/-- The method `Handler.CreateNote`. -/
def CreateNote (h : Handler τ) (w : ResponseWriter) (r : Request) (t : ServiceWorld τ) :
    Outcome τ :=
  let w := w.setHeader "Content-Type" "application/json"
  match json.DecodeCreateNoteDTO r with
  | Except.error _ => ⟨some (apperror.BadRequestError "invalid data"), w, t⟩
  | Except.ok crNote =>
      let res := h.NoteService.Create t.state crNote
      let t := t.after (ServiceCall.Create crNote) res.2
      match res.1.2 with
      | some err => ⟨some err, w, t⟩
      | none =>
          let w := w.setHeader "Location" (notesURL ++ "/" ++ res.1.1)
          ⟨none, w.WriteHeader 201, t⟩

/-- The flag computed by `PartiallyUpdateNote` between the first decoding and the
service call: `tagsUpdate := len(noteDTO.Tags) != 0`, and when the decoded tags
are empty the body is decoded a second time, into a map, and the flag is set if
the map has the key `tags`.  The second decoding may fail. -/
def tagsUpdateFlag (bodyBytes : Payload) (noteDTO : UpdateNoteDTO) : Except GoError Bool :=
  let tagsUpdate := noteDTO.Tags.length != 0
  if noteDTO.Tags.length = 0 then
    match json.UnmarshalMap bodyBytes with
    | Except.error err => Except.error err
    | Except.ok data => Except.ok (if json.hasKey data "tags" then true else tagsUpdate)
  else Except.ok tagsUpdate

/-- The method `Handler.PartiallyUpdateNote`; `none` when the type assertion on
the route parameters panics. -/
def PartiallyUpdateNote (h : Handler τ) (w : ResponseWriter) (r : Request)
    (t : ServiceWorld τ) : Option (Outcome τ) :=
  let w := w.setHeader "Content-Type" "application/json"
  match r.params with
  | none => none
  | some params =>
      let noteUUID := lookupFirst params "uuid"
      if noteUUID = "" then
        some ⟨some (apperror.BadRequestError
          "uuid query parameter is required and must be a comma separated integers"), w, t⟩
      else
        match ioutil.ReadAll r with
        | Except.error err => some ⟨some err, w, t⟩
        | Except.ok bodyBytes =>
            match json.UnmarshalUpdateNoteDTO bodyBytes with
            | Except.error err => some ⟨some err, w, t⟩
            | Except.ok noteDTO =>
                match tagsUpdateFlag bodyBytes noteDTO with
                | Except.error err => some ⟨some err, w, t⟩
                | Except.ok tagsUpdate =>
                    let res := h.NoteService.Update t.state noteUUID noteDTO tagsUpdate
                    let t := t.after (ServiceCall.Update noteUUID noteDTO tagsUpdate) res.2
                    match res.1 with
                    | some err => some ⟨some err, w, t⟩
                    | none => some ⟨none, w.WriteHeader 204, t⟩

/-- The method `Handler.DeleteNote`; `none` when the type assertion on the route
parameters panics. -/
def DeleteNote (h : Handler τ) (w : ResponseWriter) (r : Request) (t : ServiceWorld τ) :
    Option (Outcome τ) :=
  let w := w.setHeader "Content-Type" "application/json"
  match r.params with
  | none => none
  | some params =>
      let noteUUID := lookupFirst params "uuid"
      if noteUUID = "" then
        some ⟨some (apperror.BadRequestError
          "uuid query parameter is required and must be a comma separated integers"), w, t⟩
      else
        let res := h.NoteService.Delete t.state noteUUID
        let t := t.after (ServiceCall.Delete noteUUID) res.2
        match res.1 with
        | some err => some ⟨some err, w, t⟩
        | none => some ⟨none, w.WriteHeader 204, t⟩

end Handler

/-! ## Storage implementations used to run the code -/

/-- A storage without state that answers every call with the same identifier,
notes and error. -/
def fixedStorage (uuid : String) (notes : List Note) (err : Option GoError) : Storage Unit :=
  { Create := fun st _ => ((uuid, err), st)
    FindOne := fun st _ => ((notes.headD default, err), st)
    FindByCategoryUUID := fun st _ => ((notes, err), st)
    Update := fun st _ _ _ => (err, st)
    Delete := fun st _ => (err, st) }

/-- The state of the in-memory storage: the notes held and the number of
identifiers issued so far. -/
structure MemStore where
  notes : List Note
  issued : Nat
  deriving DecidableEq, Repr

namespace MemStore

/-- The note stored under an identifier. -/
def find (st : MemStore) (uuid : String) : Option Note :=
  st.notes.find? fun n => decide (n.UUID = uuid)

/-- The tags of the note stored under an identifier. -/
def tagsOf (st : MemStore) (uuid : String) : Option (List String) :=
  (st.find uuid).map fun n => n.Tags

/-- Modelled from the spec: the field-by-field update of section 4.3: `header`,
`body` (with `short_body` recomputed) and `category_uuid` are replaced when
present, `tags` are replaced wholesale when `tagsUpdate` is set. -/
def apply (shortBody : String → String) (dto : UpdateNoteDTO) (tagsUpdate : Bool) (n : Note) :
    Note :=
  { UUID := n.UUID
    Header := if dto.Header = "" then n.Header else dto.Header
    Body := if dto.Body = "" then n.Body else dto.Body
    ShortBody := if dto.Body = "" then n.ShortBody else shortBody dto.Body
    CategoryUUID := if dto.CategoryUUID = "" then n.CategoryUUID else dto.CategoryUUID
    Tags := if tagsUpdate then dto.Tags else n.Tags }

end MemStore

/-- Modelled from the spec: an in-memory `Storage` following section 4.3 (the
storage of the repository, a document-store client, is not part of the sources).
`Create` issues a new identifier; `FindOne`, `Update` and `Delete` fail with the
not-found sentinel on an unknown identifier; `FindByCategoryUUID` returns the
matches and never fails. -/
def memStorage (shortBody : String → String) : Storage MemStore :=
  { Create := fun st dto =>
      let uuid := String.mk (List.replicate (st.issued + 1) 'n')
      ((uuid, none),
        { notes := st.notes ++ [⟨uuid, dto.Header, dto.Body, dto.ShortBody, dto.CategoryUUID,
            dto.Tags⟩],
          issued := st.issued + 1 })
    FindOne := fun st uuid =>
      match st.find uuid with
      | some n => ((n, none), st)
      | none => ((default, some apperror.ErrNotFound), st)
    FindByCategoryUUID := fun st uuid =>
      ((st.notes.filter fun n => decide (n.CategoryUUID = uuid), none), st)
    Update := fun st uuid dto tagsUpdate =>
      match st.find uuid with
      | some _ =>
          (none, { st with notes := st.notes.map fun n =>
            if n.UUID = uuid then MemStore.apply shortBody dto tagsUpdate n else n })
      | none => (some apperror.ErrNotFound, st)
    Delete := fun st uuid =>
      match st.find uuid with
      | some _ => (none, { st with notes := st.notes.filter fun n => !decide (n.UUID = uuid) })
      | none => (some apperror.ErrNotFound, st) }

/-- Modelled from the spec: the part of the section 4.3 contract of
`Storage.Update` that concerns tags, for a storage whose state shows the tags of
each note through `tagsOf`: an update that succeeds is an update of an existing
note, and afterwards the note has the tags of the DTO if `tagsUpdate` is set and
its former tags otherwise. -/
def Storage.MeetsTagsContract {σ : Type} (s : Storage σ)
    (tagsOf : σ → String → Option (List String)) : Prop :=
  ∀ (st : σ) (uuid : String) (dto : UpdateNoteDTO) (tagsUpdate : Bool),
    (s.Update st uuid dto tagsUpdate).1 = none →
      ∃ old, tagsOf st uuid = some old ∧
        tagsOf (s.Update st uuid dto tagsUpdate).2 uuid
          = some (if tagsUpdate then dto.Tags else old)

/-- The handler of the running service: the `service` over a storage behind the
`Handler`, with the given encoders. -/
def noteHandler {σ : Type} (s : service σ) (marshalNote : Note → Except GoError String)
    (marshalNotes : List Note → Except GoError String) : Handler (StorageWorld σ) :=
  { NoteService := s.toService, MarshalNote := marshalNote, MarshalNotes := marshalNotes }


/-- A handler to run the code on: the service over the in-memory storage, with
`GenerateShortBody` leaving the DTO as it is and stand-in encoders. -/
def demoHandler : Handler (StorageWorld MemStore) :=
  noteHandler ⟨memStorage id, id⟩ (fun n => Except.ok n.Body)
    (fun ns => Except.ok (String.join (ns.map fun n => n.Body)))

/-- A handler to run the code on: the service over a storage failing every call
with the given error. -/
def failingHandler (err : GoError) : Handler (StorageWorld Unit) :=
  noteHandler ⟨fixedStorage "" [] (some err), id⟩ (fun n => Except.ok n.Body)
    (fun ns => Except.ok (String.join (ns.map fun n => n.Body)))

/-- A fresh response writer. -/
def emptyWriter : ResponseWriter := ⟨[], [], []⟩

/-- The in-memory service side with no note and no call made. -/
def emptyWorld : ServiceWorld (StorageWorld MemStore) := ⟨⟨⟨[], 0⟩, []⟩, []⟩

/-- The in-memory service side holding one note, `n1`, of category `c1`, with one
tag, and no call made. -/
def oneNoteWorld : ServiceWorld (StorageWorld MemStore) :=
  ⟨⟨⟨[⟨"n1", "H", "B", "B", "c1", ["t"]⟩], 1⟩, []⟩, []⟩

/-- The service side of `failingHandler`, no call made. -/
def unitWorld : ServiceWorld (StorageWorld Unit) := ⟨⟨(), []⟩, []⟩

/-- A body cut short: the scanner reports `unexpected end of JSON input`. -/
def cutShort : Body :=
  Body.read (Payload.malformed (GoError.errorString "unexpected end of JSON input"))

/-- The object of the spec's example POST: header `H`, body `B`, category `c1`. -/
def exampleNote : json.Value :=
  json.Value.object
    [("header", json.Value.string "H"), ("body", json.Value.string "B"),
      ("category_uuid", json.Value.string "c1")]

/-- The POST of the spec's example. -/
def postExample : Request :=
  ⟨none, [], Body.read (Payload.text exampleNote)⟩

/-- The POST of the spec's example with further bytes after the object, bytes that
are not JSON as a whole: `json.Unmarshal` reports them as an invalid character
after the top-level value. -/
def postTrailing : Request :=
  ⟨none, [], Body.read (Payload.trailing exampleNote
    (GoError.errorString "invalid character 'x' after top-level value"))⟩

/-- A request on note `uuid` with a JSON object as its body. -/
def patchOf (uuid : String) (members : List (String × json.Value)) : Request :=
  ⟨some [("uuid", uuid)], [], Body.read (Payload.text (json.Value.object members))⟩

/-- The number `1e999`, which is JSON and does not fit a `float64`. -/
def tooLarge : json.Value := json.Value.number "1e999" false

/-- The error classification rule of section 4.2, as a relation between the error
`e` of the storage call and the error `r` the service method returns, for the
method's descriptive text `text`: a not-found `e` is returned as it is; any other
`e` gives a new error whose message starts with `text`, which unwraps to `e`, for
which `errors.Is(r, e)` holds, and which is not a not-found condition. -/
def service.PassesOrWraps (text : String) (e : GoError) (r : Option GoError) : Prop :=
  (errors.Is e apperror.ErrNotFound = true → r = some e) ∧
  (errors.Is e apperror.ErrNotFound = false →
    ∃ r', r = some r' ∧ r' ≠ e ∧ (∃ rest, r'.Error = text ++ rest) ∧
      r'.Unwrap = some e ∧ errors.Is r' e = true ∧
      errors.Is r' apperror.ErrNotFound = false)

/-! ## Errors: lemmas -/

theorem errors.Is_self (e : GoError) : errors.Is e e = true := by
  cases e <;> simp [errors.Is]

theorem errors.Is_wrapError (msg : String) (e target : GoError) :
    errors.Is (GoError.wrapError msg e) target
      = (decide (GoError.wrapError msg e = target) || errors.Is e target) := by
  by_cases h : GoError.wrapError msg e = target <;> simp [errors.Is, h]

theorem errors.Is_Errorf_self (text : String) (e : GoError) :
    errors.Is (fmt.Errorf text e) e = true := by
  simp [fmt.Errorf, errors.Is_wrapError, errors.Is_self]

theorem errors.Is_Errorf_notFound (text : String) (e : GoError)
    (h : errors.Is e apperror.ErrNotFound = false) :
    errors.Is (fmt.Errorf text e) apperror.ErrNotFound = false := by
  rw [fmt.Errorf, errors.Is_wrapError, h]
  simp [apperror.ErrNotFound]

theorem GoError.sizeOf_wrapError_ne (msg : String) (e : GoError) :
    GoError.wrapError msg e ≠ e := by
  intro h
  have := congrArg sizeOf h
  simp at this

theorem apperror.isBadRequest_of_Is_notFound (e : GoError)
    (h : errors.Is e apperror.ErrNotFound = true) : apperror.isBadRequest e = false := by
  cases e <;> simp_all [errors.Is, apperror.isBadRequest, apperror.ErrNotFound]

theorem service.classify_not_badRequest (text : String) (o : Option GoError) (e : GoError)
    (h : service.classify text o = some e) : apperror.isBadRequest e = false := by
  cases o with
  | none => simp [service.classify] at h
  | some err =>
      by_cases hnf : errors.Is err apperror.ErrNotFound = true
      · simp [service.classify, hnf] at h
        subst h
        exact apperror.isBadRequest_of_Is_notFound _ hnf
      · simp [service.classify, hnf] at h
        subst h
        simp [fmt.Errorf, apperror.isBadRequest]

theorem service.classify_passesOrWraps (text : String) (e : GoError) :
    service.PassesOrWraps text e (service.classify text (some e)) := by
  refine ⟨fun h => by simp [service.classify, h], fun h => ?_⟩
  refine ⟨fmt.Errorf text e, by simp [service.classify, h], ?_, ⟨e.Error, rfl⟩, rfl,
    errors.Is_Errorf_self text e, errors.Is_Errorf_notFound text e h⟩
  exact GoError.sizeOf_wrapError_ne _ _

/-! ## service.go: theorems -/

/-- C1: `service.Update` returns a bad-request error exactly when `dto.Body`,
`dto.Header` and `dto.CategoryUUID` are all empty and `tagsUpdate` is false; and
in that case it returns `BadRequestError("nothing to update")` and leaves the
storage side as it was: no call is logged and the store is unchanged. -/
theorem service.Update_badRequest_iff {σ : Type} (s : service σ) (w : StorageWorld σ)
    (uuid : String) (dto : UpdateNoteDTO) (tagsUpdate : Bool) :
    ((∃ e, (s.Update w uuid dto tagsUpdate).1 = some e ∧ apperror.isBadRequest e = true) ↔
        (dto.Body = "" ∧ dto.Header = "" ∧ dto.CategoryUUID = "" ∧ tagsUpdate = false)) ∧
      ((dto.Body = "" ∧ dto.Header = "" ∧ dto.CategoryUUID = "" ∧ tagsUpdate = false) →
        s.Update w uuid dto tagsUpdate
          = (some (apperror.BadRequestError "nothing to update"), w)) := by
  by_cases g : dto.Body = "" ∧ dto.Header = "" ∧ dto.CategoryUUID = "" ∧ tagsUpdate = false
  · have hu : s.Update w uuid dto tagsUpdate
        = (some (apperror.BadRequestError "nothing to update"), w) := by
      simp only [service.Update, if_pos g]
    refine ⟨⟨fun _ => g, fun _ => ⟨_, congrArg Prod.fst hu, rfl⟩⟩, fun _ => hu⟩
  · refine ⟨⟨?_, fun h => absurd h g⟩, fun h => absurd h g⟩
    rintro ⟨e, he, hb⟩
    simp only [service.Update, if_neg g] at he
    rw [service.classify_not_badRequest _ _ _ he] at hb
    exact absurd hb (by decide)

/-- C1, at an input: an update of note `n1` with an all-empty DTO and no tags
key, over a storage holding that note. -/
theorem service.Update_badRequest_iff_witness :
    ((⟨"", "", "", []⟩ : UpdateNoteDTO).Body = "" ∧ (⟨"", "", "", []⟩ : UpdateNoteDTO).Header = ""
        ∧ (⟨"", "", "", []⟩ : UpdateNoteDTO).CategoryUUID = "" ∧ false = false) ∧
      service.Update ⟨memStorage id, id⟩ ⟨⟨[⟨"n1", "H", "B", "B", "c1", ["t"]⟩], 1⟩, []⟩ "n1"
          ⟨"", "", "", []⟩ false
        = (some (apperror.BadRequestError "nothing to update"),
            ⟨⟨[⟨"n1", "H", "B", "B", "c1", ["t"]⟩], 1⟩, []⟩) :=
  ⟨by decide, (service.Update_badRequest_iff _ _ _ _ _).2 (by decide)⟩

/-- C2: when `Storage.FindByCategoryUUID` returns no error and a zero-length
result, `service.GetByCategoryUUID` returns the not-found sentinel; it never
returns a nil error together with an empty list; and when the storage returns no
error and a non-empty list, it returns exactly that list with a nil error. -/
theorem service.GetByCategoryUUID_empty_is_notFound {σ : Type} (s : service σ)
    (w : StorageWorld σ) (uuid : String) :
    ((s.storage.FindByCategoryUUID w.store uuid).1.2 = none →
        (s.storage.FindByCategoryUUID w.store uuid).1.1.length = 0 →
        (s.GetByCategoryUUID w uuid).1.2 = some apperror.ErrNotFound) ∧
      ¬ ((s.GetByCategoryUUID w uuid).1.2 = none ∧ (s.GetByCategoryUUID w uuid).1.1 = []) ∧
      ((s.storage.FindByCategoryUUID w.store uuid).1.2 = none →
        (s.storage.FindByCategoryUUID w.store uuid).1.1 ≠ [] →
        (s.GetByCategoryUUID w uuid).1
          = ((s.storage.FindByCategoryUUID w.store uuid).1.1, none)) := by
  unfold service.GetByCategoryUUID
  cases herr : (s.storage.FindByCategoryUUID w.store uuid).1.2 with
  | some err =>
      refine ⟨fun h => by simp at h, ?_, fun h => by simp at h⟩
      by_cases hnf : errors.Is err apperror.ErrNotFound = true <;>
        simp [herr, service.classify, hnf]
  | none =>
      by_cases hlen : (s.storage.FindByCategoryUUID w.store uuid).1.1.length = 0
      · have hnil : (s.storage.FindByCategoryUUID w.store uuid).1.1 = [] :=
          List.length_eq_zero.mp hlen
        simp [herr, hlen, hnil]
      · have hne : (s.storage.FindByCategoryUUID w.store uuid).1.1 ≠ [] :=
          fun h => hlen (by simp [h])
        simp [herr, hlen, hne]

/-- C2, at two inputs: a category with no note and a category with one note, over
the in-memory storage. -/
theorem service.GetByCategoryUUID_empty_is_notFound_witness :
    (service.GetByCategoryUUID ⟨memStorage id, id⟩
        ⟨⟨[⟨"n1", "H", "B", "B", "c1", []⟩], 1⟩, []⟩ "c2").1.2 = some apperror.ErrNotFound ∧
      (service.GetByCategoryUUID ⟨memStorage id, id⟩
        ⟨⟨[⟨"n1", "H", "B", "B", "c1", []⟩], 1⟩, []⟩ "c1").1
        = ([⟨"n1", "H", "B", "B", "c1", []⟩], none) :=
  ⟨(service.GetByCategoryUUID_empty_is_notFound _ _ _).1 (by decide) (by decide),
    (service.GetByCategoryUUID_empty_is_notFound _ _ _).2.2 (by decide) (by decide)⟩

/-- C3: in each of `Create`, `GetOne`, `GetByCategoryUUID`, `Update` and `Delete`,
whenever the storage call is made and returns an error `e`, the method returns
`e` itself if `errors.Is(e, ErrNotFound)`, and otherwise a new error whose
message starts with the method's descriptive text, which wraps `e`
(`errors.Is(result, e)`) and which is not a not-found condition. -/
theorem service.storage_error_passes_or_wraps {σ : Type} (s : service σ)
    (w : StorageWorld σ) (e : GoError) :
    (∀ dto, (s.storage.Create w.store (s.GenerateShortBody dto)).1.2 = some e →
        service.PassesOrWraps "failed to create note. error: " e (s.Create w dto).1.2) ∧
      (∀ uuid, (s.storage.FindOne w.store uuid).1.2 = some e →
        service.PassesOrWraps "failed to find note by uuid. error: " e (s.GetOne w uuid).1.2) ∧
      (∀ uuid, (s.storage.FindByCategoryUUID w.store uuid).1.2 = some e →
        service.PassesOrWraps "failed to get notes by ids. error: " e
          (s.GetByCategoryUUID w uuid).1.2) ∧
      (∀ uuid dto tagsUpdate,
        ¬ (dto.Body = "" ∧ dto.Header = "" ∧ dto.CategoryUUID = "" ∧ tagsUpdate = false) →
        (s.storage.Update w.store uuid dto tagsUpdate).1 = some e →
        service.PassesOrWraps "failed to update note. error: " e
          (s.Update w uuid dto tagsUpdate).1) ∧
      (∀ uuid, (s.storage.Delete w.store uuid).1 = some e →
        service.PassesOrWraps "failed to delete note. error: " e (s.Delete w uuid).1) := by
  refine ⟨fun dto h => ?_, fun uuid h => ?_, fun uuid h => ?_, fun uuid dto tagsUpdate g h => ?_,
    fun uuid h => ?_⟩
  · simp only [service.Create, h]
    exact service.classify_passesOrWraps _ e
  · simp only [service.GetOne, h]
    exact service.classify_passesOrWraps _ e
  · simp only [service.GetByCategoryUUID, h]
    exact service.classify_passesOrWraps _ e
  · simp only [service.Update, if_neg g, h]
    exact service.classify_passesOrWraps _ e
  · simp only [service.Delete, h]
    exact service.classify_passesOrWraps _ e

/-- C3, at two inputs: a delete over a storage failing with a driver error, and a
delete of an unknown note over the in-memory storage. -/
theorem service.storage_error_passes_or_wraps_witness :
    service.PassesOrWraps "failed to delete note. error: "
        (GoError.errorString "connection refused")
        (service.Delete ⟨fixedStorage "" [] (some (GoError.errorString "connection refused")), id⟩
          ⟨(), []⟩ "n1").1 ∧
      service.PassesOrWraps "failed to delete note. error: " apperror.ErrNotFound
        (service.Delete ⟨memStorage id, id⟩ ⟨⟨[], 0⟩, []⟩ "n1").1 :=
  ⟨(service.storage_error_passes_or_wraps _ _ _).2.2.2.2 "n1" rfl,
    (service.storage_error_passes_or_wraps _ _ _).2.2.2.2 "n1" rfl⟩

/-- C8, as stated, fails: `Create` over a storage failing with the driver error
`connection refused` (not a not-found condition) returns an error whose message
is `failed to create note. error: connection refused`, which ends with the raw
driver text. -/
theorem service.Create_message_contains_storage_text :
    errors.Is (GoError.errorString "connection refused") apperror.ErrNotFound = false ∧
      (service.Create ⟨fixedStorage "" [] (some (GoError.errorString "connection refused")), id⟩
          ⟨(), []⟩ ⟨"H", "B", "", "c1", []⟩).1.2.map GoError.Error
        = some "failed to create note. error: connection refused" ∧
      "connection refused".data <:+ "failed to create note. error: connection refused".data :=
  ⟨by decide, by decide, ⟨"failed to create note. error: ".data, by decide⟩⟩

/-- C8, amended: for a storage failure `e` that is not the not-found condition,
the message of the error each service method returns is the method's descriptive
text followed by the message of `e`. -/
theorem service.storage_error_message {σ : Type} (s : service σ) (w : StorageWorld σ)
    (e : GoError) (hnf : errors.Is e apperror.ErrNotFound = false) :
    (∀ dto, (s.storage.Create w.store (s.GenerateShortBody dto)).1.2 = some e →
        (s.Create w dto).1.2.map GoError.Error
          = some ("failed to create note. error: " ++ e.Error)) ∧
      (∀ uuid, (s.storage.FindOne w.store uuid).1.2 = some e →
        (s.GetOne w uuid).1.2.map GoError.Error
          = some ("failed to find note by uuid. error: " ++ e.Error)) ∧
      (∀ uuid, (s.storage.FindByCategoryUUID w.store uuid).1.2 = some e →
        (s.GetByCategoryUUID w uuid).1.2.map GoError.Error
          = some ("failed to get notes by ids. error: " ++ e.Error)) ∧
      (∀ uuid dto tagsUpdate,
        ¬ (dto.Body = "" ∧ dto.Header = "" ∧ dto.CategoryUUID = "" ∧ tagsUpdate = false) →
        (s.storage.Update w.store uuid dto tagsUpdate).1 = some e →
        (s.Update w uuid dto tagsUpdate).1.map GoError.Error
          = some ("failed to update note. error: " ++ e.Error)) ∧
      (∀ uuid, (s.storage.Delete w.store uuid).1 = some e →
        (s.Delete w uuid).1.map GoError.Error
          = some ("failed to delete note. error: " ++ e.Error)) := by
  refine ⟨fun dto h => ?_, fun uuid h => ?_, fun uuid h => ?_, fun uuid dto tagsUpdate g h => ?_,
    fun uuid h => ?_⟩
  · simp [service.Create, h, service.classify, hnf, fmt.Errorf, GoError.Error]
  · simp [service.GetOne, h, service.classify, hnf, fmt.Errorf, GoError.Error]
  · simp [service.GetByCategoryUUID, h, service.classify, hnf, fmt.Errorf, GoError.Error]
  · simp [service.Update, g, h, service.classify, hnf, fmt.Errorf, GoError.Error]
  · simp [service.Delete, h, service.classify, hnf, fmt.Errorf, GoError.Error]

/-- C8, amended, at an input: fetching a note over a storage failing with a driver
error. -/
theorem service.storage_error_message_witness :
    errors.Is (GoError.errorString "connection refused") apperror.ErrNotFound = false ∧
      (service.GetOne ⟨fixedStorage "" [] (some (GoError.errorString "connection refused")), id⟩
          ⟨(), []⟩ "n1").1.2.map GoError.Error
        = some ("failed to find note by uuid. error: "
            ++ (GoError.errorString "connection refused").Error) :=
  ⟨by decide, (service.storage_error_message _ _ _ (by decide)).2.1 "n1" rfl⟩

/-! ## handler.go: theorems -/

theorem ResponseWriter.getHeader_setHeader (w : ResponseWriter) (key value : String) :
    (w.setHeader key value).getHeader key = some value := by
  simp only [ResponseWriter.getHeader, ResponseWriter.setHeader, List.find?_append]
  have hnone : List.find? (fun kv => decide (kv.1 = key))
      (List.filter (fun kv => !decide (kv.1 = key)) w.header) = none := by
    rw [List.find?_eq_none]
    intro kv hkv
    simpa using (List.mem_filter.mp hkv).2
  simp [hnone]

theorem ResponseWriter.getHeader_setHeader_other (w : ResponseWriter) (key value other : String)
    (hne : other ≠ key) : (w.setHeader key value).getHeader other = w.getHeader other := by
  simp only [ResponseWriter.getHeader, ResponseWriter.setHeader]
  congr 1
  induction w.header with
  | nil =>
      have hno : ¬ decide ((key, value).1 = other) = true := by
        simpa using fun h => hne h.symm
      rw [List.filter_nil, List.nil_append]
      exact @List.find?_cons_of_neg _ (fun kv => decide (kv.1 = other)) (key, value) [] hno
  | cons kv rest ih =>
      by_cases hk : kv.1 = key
      · have hdrop : ¬ (!decide (kv.1 = key)) = true := by simp [hk]
        have hno : ¬ decide (kv.1 = other) = true := by
          simpa using fun h => hne (h.symm.trans hk)
        rw [@List.filter_cons_of_neg _ (fun kv => !decide (kv.1 = key)) kv rest hdrop,
          @List.find?_cons_of_neg _ (fun kv => decide (kv.1 = other)) kv rest hno]
        exact ih
      · have hkeep : (!decide (kv.1 = key)) = true := by simp [hk]
        rw [@List.filter_cons_of_pos _ (fun kv => !decide (kv.1 = key)) kv rest hkeep,
          List.cons_append]
        by_cases ho : kv.1 = other
        · have hyes : decide (kv.1 = other) = true := by simp [ho]
          rw [@List.find?_cons_of_pos _ (fun kv => decide (kv.1 = other)) kv _ hyes,
            @List.find?_cons_of_pos _ (fun kv => decide (kv.1 = other)) kv _ hyes]
        · have hno : ¬ decide (kv.1 = other) = true := by simp [ho]
          rw [@List.find?_cons_of_neg _ (fun kv => decide (kv.1 = other)) kv _ hno,
            @List.find?_cons_of_neg _ (fun kv => decide (kv.1 = other)) kv _ hno]
          exact ih

theorem notesURL_slash (u : String) : notesURL ++ "/" ++ u = "/api/notes/" ++ u := by
  rw [String.append_assoc, notesURL, ← String.append_assoc]
  rfl

/-! ## Which JSON values decode into a note DTO -/

theorem json.storeString_isOk (field cur : String) (v : json.Value) :
    (json.storeString field cur v).isOk = json.fitsString v := by
  cases v <;> rfl

theorem json.storeElems_isOk (field : String) (elems : List json.Value) :
    ∀ old, (json.storeElems field elems old).isOk = elems.all json.fitsString := by
  induction elems with
  | nil => intro old; rfl
  | cons v rest ih =>
      intro old
      have hv := json.storeString_isOk field (old.headD "") v
      have hr := ih old.tail
      simp only [json.storeElems, List.all_cons]
      cases hs : json.storeString field (old.headD "") v with
      | error err =>
          rw [hs] at hv
          rw [← hv]
          rfl
      | ok s =>
          rw [hs] at hv
          rw [← hv, ← hr]
          cases json.storeElems field rest old.tail <;> rfl

theorem json.storeStrings_isOk (field : String) (cur : json.StringSlice) (v : json.Value) :
    (json.storeStrings field cur v).isOk = json.fitsStrings v := by
  cases v with
  | array elems =>
      cases elems with
      | nil => rfl
      | cons e rest =>
          have h := json.storeElems_isOk field (e :: rest) (cur.elems ++ cur.spare)
          simp only [json.storeStrings, json.fitsStrings]
          rw [← h]
          cases json.storeElems field (e :: rest) (cur.elems ++ cur.spare) <;> rfl
  | null => rfl
  | bool b => rfl
  | number lit inRange => rfl
  | string s => rfl
  | object members => rfl

theorem Except.isOk_map {ε α β : Type} (f : α → β) (x : Except ε α) :
    (x.map f).isOk = x.isOk := by
  cases x <;> rfl

theorem json.storeCreateField_isOk (st : CreateNoteDTO × List String) (key : String)
    (v : json.Value) : (json.storeCreateField st key v).isOk = json.fitsNoteField key v := by
  unfold json.storeCreateField json.fitsNoteField
  split
  · rw [Except.isOk_map, json.storeString_isOk]
  · split
    · rw [Except.isOk_map, json.storeString_isOk]
    · split
      · rw [Except.isOk_map, json.storeString_isOk]
      · split
        · rw [Except.isOk_map, json.storeStrings_isOk]
        · rfl

theorem json.storeMembers_isOk {α : Type}
    (store : α → String → json.Value → Except GoError α) (fits : String → json.Value → Bool)
    (hstore : ∀ a key v, (store a key v).isOk = fits key v)
    (members : List (String × json.Value)) :
    ∀ a, (json.storeMembers store members a).isOk = members.all fun kv => fits kv.1 kv.2 := by
  induction members with
  | nil => intro a; rfl
  | cons kv rest ih =>
      intro a
      obtain ⟨key, v⟩ := kv
      have hk := hstore a key v
      simp only [json.storeMembers, List.all_cons]
      cases hs : store a key v with
      | error err =>
          rw [hs] at hk
          rw [← hk]
          rfl
      | ok b =>
          rw [hs] at hk
          rw [← hk, ← ih b]
          rfl

theorem json.decodeCreateNoteDTO_isOk (v : json.Value) :
    (json.decodeCreateNoteDTO v).isOk = json.fitsNoteDTO v := by
  cases v with
  | object members =>
      simp only [json.decodeCreateNoteDTO, json.fitsNoteDTO, Except.isOk_map]
      exact json.storeMembers_isOk _ _ json.storeCreateField_isOk members _
  | null => rfl
  | bool b => rfl
  | number lit inRange => rfl
  | string s => rfl
  | array elems => rfl

theorem json.DecodeCreateNoteDTO_isOk (r : Request) :
    (json.DecodeCreateNoteDTO r).isOk
      = match r.body.firstValue with
        | some v => json.fitsNoteDTO v
        | none => false := by
  unfold json.DecodeCreateNoteDTO
  cases hb : r.body with
  | read bytes =>
      cases bytes with
      | malformed err => rfl
      | text v => exact json.decodeCreateNoteDTO_isOk v
      | trailing v err => exact json.decodeCreateNoteDTO_isOk v
  | failed err first =>
      cases first with
      | none => rfl
      | some v => exact json.decodeCreateNoteDTO_isOk v

/-- C6, the code at a failing input: the POST body made of the spec's example
object followed by further bytes is not a JSON text (`json.Unmarshal`, as used by
the PATCH handler, rejects the same bytes), yet the decoder of `CreateNote` stops
after the object: `Service.Create` is called, a note is stored, the handler
returns nil and writes the status 201. -/
theorem Handler.CreateNote_trailing_bytes_accepted :
    (json.UnmarshalMap (Payload.trailing exampleNote
          (GoError.errorString "invalid character 'x' after top-level value"))).isOk = false ∧
      (json.UnmarshalUpdateNoteDTO (Payload.trailing exampleNote
          (GoError.errorString "invalid character 'x' after top-level value"))).isOk = false ∧
      (demoHandler.CreateNote emptyWriter postTrailing emptyWorld).err = none ∧
      (demoHandler.CreateNote emptyWriter postTrailing emptyWorld).w.statuses = [201] ∧
      (demoHandler.CreateNote emptyWriter postTrailing emptyWorld).world.calls
        = [ServiceCall.Create ⟨"H", "B", "", "c1", []⟩] ∧
      (demoHandler.CreateNote emptyWriter postTrailing emptyWorld).world.state.store.notes
        = [⟨"n", "H", "B", "", "c1", []⟩] := by
  refine ⟨by decide, by decide, by decide, by decide, by decide, by decide⟩

/-- What `CreateNote` rejects: it looks only at the first JSON value of the body.  When
the body does not begin with a JSON value that encodes a `CreateNoteDTO` (no
value can be read, or the value is neither `null` nor an object, or a member
under one of the DTO's keys has the wrong type), it returns
`BadRequestError("invalid data")`, makes no service call and writes no status
code: only `Content-Type` is set.  When the body does begin with such a value,
the value decodes and `Service.Create` is called with the decoded DTO. -/
theorem Handler.CreateNote_invalid_body {τ : Type} (h : Handler τ) (w : ResponseWriter)
    (r : Request) (t : ServiceWorld τ) :
    ((∀ v, r.body.firstValue = some v → json.fitsNoteDTO v = false) →
        h.CreateNote w r t
            = ⟨some (apperror.BadRequestError "invalid data"),
                w.setHeader "Content-Type" "application/json", t⟩ ∧
          (h.CreateNote w r t).world.calls = t.calls ∧
          (h.CreateNote w r t).w.statuses = w.statuses) ∧
      (∀ v, r.body.firstValue = some v → json.fitsNoteDTO v = true →
        ∃ crNote, json.decodeCreateNoteDTO v = Except.ok crNote ∧
          (h.CreateNote w r t).world
            = t.after (ServiceCall.Create crNote) (h.NoteService.Create t.state crNote).2) := by
  have hok := json.DecodeCreateNoteDTO_isOk r
  refine ⟨fun hbad => ?_, fun v hv hfit => ?_⟩
  · have hfail : (json.DecodeCreateNoteDTO r).isOk = false := by
      rw [hok]
      cases hf : r.body.firstValue with
      | none => rfl
      | some v => exact hbad v hf
    cases hd : json.DecodeCreateNoteDTO r with
    | ok crNote =>
        rw [hd] at hfail
        exact absurd hfail (by simp [Except.isOk, Except.toBool])
    | error err =>
        have hout : h.CreateNote w r t
            = ⟨some (apperror.BadRequestError "invalid data"),
                w.setHeader "Content-Type" "application/json", t⟩ := by
          simp only [Handler.CreateNote, hd]
        exact ⟨hout, by rw [hout], by rw [hout]; rfl⟩
  · have hsucc : (json.DecodeCreateNoteDTO r).isOk = true := by
      rw [hok, hv]
      exact hfit
    have hsame : json.DecodeCreateNoteDTO r = json.decodeCreateNoteDTO v := by
      unfold json.DecodeCreateNoteDTO
      cases hb : r.body with
      | read bytes =>
          cases bytes with
          | malformed err => simp [hb, Body.firstValue] at hv
          | text v' =>
              have : v' = v := by simpa [hb, Body.firstValue] using hv
              rw [this]
          | trailing v' err =>
              have : v' = v := by simpa [hb, Body.firstValue] using hv
              rw [this]
      | failed err first =>
          cases first with
          | none => simp [hb, Body.firstValue] at hv
          | some v' =>
              have : v' = v := by simpa [hb, Body.firstValue] using hv
              rw [this]
    cases hd : json.DecodeCreateNoteDTO r with
    | error err =>
        rw [hd] at hsucc
        exact absurd hsucc (by simp [Except.isOk, Except.toBool])
    | ok crNote =>
        refine ⟨crNote, by rw [← hsame, hd], ?_⟩
        simp only [Handler.CreateNote, hd]
        cases (h.NoteService.Create t.state crNote).1.2 <;> rfl

/-- What `CreateNote` rejects, at two inputs: a POST whose body is cut short, and a
POST whose `header` is a number. -/
theorem Handler.CreateNote_invalid_body_witness :
    (demoHandler.CreateNote emptyWriter ⟨none, [], cutShort⟩ emptyWorld).err
        = some (apperror.BadRequestError "invalid data") ∧
      (demoHandler.CreateNote emptyWriter ⟨none, [], cutShort⟩ emptyWorld).world.calls
        = emptyWorld.calls ∧
      (demoHandler.CreateNote emptyWriter
          ⟨none, [], Body.read (Payload.text (json.Value.object
            [("header", json.Value.number "5" true)]))⟩ emptyWorld).err
        = some (apperror.BadRequestError "invalid data") :=
  ⟨congrArg (fun o => o.err)
      ((Handler.CreateNote_invalid_body demoHandler emptyWriter ⟨none, [], cutShort⟩
        emptyWorld).1 (fun v hv => by simp [cutShort, Body.firstValue] at hv)).1,
    ((Handler.CreateNote_invalid_body demoHandler emptyWriter ⟨none, [], cutShort⟩
        emptyWorld).1 (fun v hv => by simp [cutShort, Body.firstValue] at hv)).2.1,
    congrArg (fun o => o.err)
      ((Handler.CreateNote_invalid_body demoHandler emptyWriter
        ⟨none, [], Body.read (Payload.text (json.Value.object
          [("header", json.Value.number "5" true)]))⟩ emptyWorld).1
        (fun v hv => by
          have : json.Value.object [("header", json.Value.number "5" true)] = v := by
            simpa [Body.firstValue] using hv
          rw [← this]
          decide)).1⟩

/-- C7, the code at a failing input: a PATCH of the stored note `n1` whose body is
cut short.  `PartiallyUpdateNote` returns the decoding error itself, which is
not a bad-request error; no service call and no storage call is made. -/
theorem Handler.PartiallyUpdateNote_malformed_body_returns_raw_error :
    (demoHandler.PartiallyUpdateNote emptyWriter ⟨some [("uuid", "n1")], [], cutShort⟩
        oneNoteWorld).map (fun o => o.err)
        = some (some (GoError.errorString "unexpected end of JSON input")) ∧
      apperror.isBadRequest (GoError.errorString "unexpected end of JSON input") = false ∧
      (demoHandler.PartiallyUpdateNote emptyWriter ⟨some [("uuid", "n1")], [], cutShort⟩
        oneNoteWorld).map (fun o => o.world.calls) = some [] ∧
      (demoHandler.PartiallyUpdateNote emptyWriter ⟨some [("uuid", "n1")], [], cutShort⟩
        oneNoteWorld).map (fun o => o.world.state.calls) = some [] := by
  refine ⟨by decide, by decide, by decide, by decide⟩

/-- C10: for a body that decodes into a `CreateNoteDTO`: when `Service.Create`
returns the identifier `u` and no error, `CreateNote` returns nil, writes the
status 201 and nothing else, and the `Location` header is `/api/notes/` followed
by `u`; when `Service.Create` returns an error, `CreateNote` returns that error,
writes no status and sets no header other than `Content-Type`, so `Location` is
as it was. -/
theorem Handler.CreateNote_created {τ : Type} (h : Handler τ) (w : ResponseWriter)
    (r : Request) (t : ServiceWorld τ) (crNote : CreateNoteDTO)
    (hd : json.DecodeCreateNoteDTO r = Except.ok crNote) :
    (∀ u, (h.NoteService.Create t.state crNote).1 = (u, none) →
        (h.CreateNote w r t).err = none ∧
        (h.CreateNote w r t).w.statuses = w.statuses ++ [201] ∧
        (h.CreateNote w r t).w.written = w.written ∧
        (h.CreateNote w r t).w.getHeader "Location" = some ("/api/notes/" ++ u)) ∧
      (∀ e, (h.NoteService.Create t.state crNote).1.2 = some e →
        (h.CreateNote w r t).err = some e ∧
        (h.CreateNote w r t).w = w.setHeader "Content-Type" "application/json" ∧
        (h.CreateNote w r t).w.getHeader "Location" = w.getHeader "Location" ∧
        (h.CreateNote w r t).w.statuses = w.statuses) := by
  refine ⟨fun u hu => ?_, fun e he => ?_⟩
  · have h2 : (h.NoteService.Create t.state crNote).1.2 = none := by rw [hu]
    have h1 : (h.NoteService.Create t.state crNote).1.1 = u := by rw [hu]
    simp only [Handler.CreateNote, hd, h2, h1, notesURL_slash]
    refine ⟨trivial, rfl, rfl, ?_⟩
    simp only [ResponseWriter.WriteHeader]
    exact ResponseWriter.getHeader_setHeader _ _ _
  · have hw : (h.CreateNote w r t).w = w.setHeader "Content-Type" "application/json" := by
      simp [Handler.CreateNote, hd, he]
    refine ⟨by simp [Handler.CreateNote, hd, he], hw, ?_, ?_⟩
    · rw [hw]
      exact ResponseWriter.getHeader_setHeader_other w _ _ _ (by decide)
    · rw [hw]
      rfl

/-- C10, at two inputs: the POST of the spec's example over the empty in-memory
storage, which issues the identifier `n`, and the same POST over a storage
failing with a driver error. -/
theorem Handler.CreateNote_created_witness :
    ((demoHandler.CreateNote emptyWriter postExample emptyWorld).err = none ∧
      (demoHandler.CreateNote emptyWriter postExample emptyWorld).w.statuses
        = emptyWriter.statuses ++ [201] ∧
      (demoHandler.CreateNote emptyWriter postExample emptyWorld).w.written
        = emptyWriter.written ∧
      (demoHandler.CreateNote emptyWriter postExample emptyWorld).w.getHeader "Location"
        = some ("/api/notes/" ++ "n")) ∧
      ((failingHandler (GoError.errorString "connection refused")).CreateNote emptyWriter
        postExample unitWorld).err
        = some (GoError.wrapError "failed to create note. error: connection refused"
            (GoError.errorString "connection refused")) :=
  ⟨(Handler.CreateNote_created demoHandler emptyWriter postExample emptyWorld
      ⟨"H", "B", "", "c1", []⟩ rfl).1 "n" (by decide),
    ((Handler.CreateNote_created (failingHandler (GoError.errorString "connection refused"))
      emptyWriter postExample unitWorld ⟨"H", "B", "", "c1", []⟩ rfl).2 _ (by decide)).1⟩


/-! ## The identifier of a request -/

/-- The PATCH handler, once the route parameters are there, the identifier is not
empty, the body is read and both decodings succeed: the service is called once,
with the identifier, the decoded DTO and the flag; the handler returns the
service's error, and writes the status 204 when there is none. -/
theorem Handler.PartiallyUpdateNote_reaches_service {τ : Type} (h : Handler τ)
    (w : ResponseWriter) (r : Request) (t : ServiceWorld τ) (ps : List (String × String))
    (bodyBytes : Payload) (dto : UpdateNoteDTO) (tagsUpdate : Bool)
    (hp : r.params = some ps) (hu : lookupFirst ps "uuid" ≠ "")
    (hb : ioutil.ReadAll r = Except.ok bodyBytes)
    (hd : json.UnmarshalUpdateNoteDTO bodyBytes = Except.ok dto)
    (hf : Handler.tagsUpdateFlag bodyBytes dto = Except.ok tagsUpdate) :
    ∃ o, h.PartiallyUpdateNote w r t = some o ∧
      o.world = t.after (ServiceCall.Update (lookupFirst ps "uuid") dto tagsUpdate)
        (h.NoteService.Update t.state (lookupFirst ps "uuid") dto tagsUpdate).2 ∧
      o.err = (h.NoteService.Update t.state (lookupFirst ps "uuid") dto tagsUpdate).1 ∧
      o.w.statuses = w.statuses ++
        (match (h.NoteService.Update t.state (lookupFirst ps "uuid") dto tagsUpdate).1 with
          | some _ => []
          | none => [204]) := by
  simp only [Handler.PartiallyUpdateNote, hp, if_neg hu, hb, hd, hf]
  cases hs : (h.NoteService.Update t.state (lookupFirst ps "uuid") dto tagsUpdate).1 with
  | some err => exact ⟨_, rfl, rfl, rfl, by simp [ResponseWriter.setHeader]⟩
  | none =>
      exact ⟨_, rfl, rfl, rfl, by simp [ResponseWriter.setHeader, ResponseWriter.WriteHeader]⟩

/-- C9, as stated, fails: on a PATCH of the stored note `n1` (a non-empty
identifier) whose `header` is a number, the first decoding fails and
`PartiallyUpdateNote` returns without calling the service; and on a request
whose context holds no route parameters there is no identifier at all, and
`GetNote` panics at the type assertion instead of returning a bad-request
error. -/
theorem Handler.PartiallyUpdateNote_undecodable_body_no_call :
    lookupFirst [("uuid", "n1")] "uuid" = "n1" ∧
      (demoHandler.PartiallyUpdateNote emptyWriter
        (patchOf "n1" [("header", json.Value.number "5" true)]) oneNoteWorld).map
          (fun o => o.world.calls) = some [] ∧
      (demoHandler.GetNote emptyWriter ⟨none, [], cutShort⟩ oneNoteWorld).isNone = true := by
  refine ⟨by decide, by decide, by decide⟩

/-- C9, amended: for a request whose context holds the route parameters and whose
path `uuid` is empty, `GetNote`, `PartiallyUpdateNote` and `DeleteNote` return a
bad-request error, leave the service side as it was (no call) and write no
status (only `Content-Type` is set); likewise `GetNotesByCategory` with an empty
`category_uuid` query parameter.  With a non-empty identifier, `GetNote`,
`DeleteNote` and `GetNotesByCategory` call the service once, with exactly that
identifier, and return the error the service returns; `PartiallyUpdateNote`
calls `Service.Update` once, with exactly that identifier, when the body is read
and both decodings succeed, and otherwise returns the reading or decoding error
without calling the service. -/
theorem Handler.identifier_required {τ : Type} (h : Handler τ) (w : ResponseWriter)
    (r : Request) (t : ServiceWorld τ) :
    (∀ ps, r.params = some ps → lookupFirst ps "uuid" = "" →
        h.GetNote w r t
          = some ⟨some (apperror.BadRequestError
              "uuid query parameter is required and must be a comma separated integers"),
            w.setHeader "Content-Type" "application/json", t⟩ ∧
        h.PartiallyUpdateNote w r t
          = some ⟨some (apperror.BadRequestError
              "uuid query parameter is required and must be a comma separated integers"),
            w.setHeader "Content-Type" "application/json", t⟩ ∧
        h.DeleteNote w r t
          = some ⟨some (apperror.BadRequestError
              "uuid query parameter is required and must be a comma separated integers"),
            w.setHeader "Content-Type" "application/json", t⟩) ∧
      (lookupFirst r.query "category_uuid" = "" →
        h.GetNotesByCategory w r t
          = ⟨some (apperror.BadRequestError
              "category_uuid query parameter is required and must be a comma separated integers"),
            w.setHeader "Content-Type" "application/json", t⟩) ∧
      (∀ ps, r.params = some ps → lookupFirst ps "uuid" ≠ "" →
        (∃ o, h.GetNote w r t = some o ∧
          o.world = t.after (ServiceCall.GetOne (lookupFirst ps "uuid"))
            (h.NoteService.GetOne t.state (lookupFirst ps "uuid")).2 ∧
          (∀ e, (h.NoteService.GetOne t.state (lookupFirst ps "uuid")).1.2 = some e →
            o.err = some e)) ∧
        (∃ o, h.DeleteNote w r t = some o ∧
          o.world = t.after (ServiceCall.Delete (lookupFirst ps "uuid"))
            (h.NoteService.Delete t.state (lookupFirst ps "uuid")).2 ∧
          o.err = (h.NoteService.Delete t.state (lookupFirst ps "uuid")).1) ∧
        (∀ bodyBytes dto tagsUpdate, ioutil.ReadAll r = Except.ok bodyBytes →
          json.UnmarshalUpdateNoteDTO bodyBytes = Except.ok dto →
          Handler.tagsUpdateFlag bodyBytes dto = Except.ok tagsUpdate →
          ∃ o, h.PartiallyUpdateNote w r t = some o ∧
            o.world = t.after (ServiceCall.Update (lookupFirst ps "uuid") dto tagsUpdate)
              (h.NoteService.Update t.state (lookupFirst ps "uuid") dto tagsUpdate).2 ∧
            o.err = (h.NoteService.Update t.state (lookupFirst ps "uuid") dto tagsUpdate).1) ∧
        (∀ e, ioutil.ReadAll r = Except.error e →
          h.PartiallyUpdateNote w r t
            = some ⟨some e, w.setHeader "Content-Type" "application/json", t⟩) ∧
        (∀ bodyBytes e, ioutil.ReadAll r = Except.ok bodyBytes →
          json.UnmarshalUpdateNoteDTO bodyBytes = Except.error e →
          h.PartiallyUpdateNote w r t
            = some ⟨some e, w.setHeader "Content-Type" "application/json", t⟩) ∧
        (∀ bodyBytes dto e, ioutil.ReadAll r = Except.ok bodyBytes →
          json.UnmarshalUpdateNoteDTO bodyBytes = Except.ok dto →
          Handler.tagsUpdateFlag bodyBytes dto = Except.error e →
          h.PartiallyUpdateNote w r t
            = some ⟨some e, w.setHeader "Content-Type" "application/json", t⟩)) ∧
      (lookupFirst r.query "category_uuid" ≠ "" →
        (h.GetNotesByCategory w r t).world
          = t.after (ServiceCall.GetByCategoryUUID (lookupFirst r.query "category_uuid"))
            (h.NoteService.GetByCategoryUUID t.state
              (lookupFirst r.query "category_uuid")).2 ∧
        (∀ e, (h.NoteService.GetByCategoryUUID t.state
            (lookupFirst r.query "category_uuid")).1.2 = some e →
          (h.GetNotesByCategory w r t).err = some e)) := by
  refine ⟨fun ps hp hu => ?_, fun hc => ?_, fun ps hp hu => ⟨?_, ?_, ?_, ?_, ?_, ?_⟩,
    fun hc => ?_⟩
  · simp [Handler.GetNote, Handler.PartiallyUpdateNote, Handler.DeleteNote, hp, hu]
  · simp [Handler.GetNotesByCategory, hc]
  · simp only [Handler.GetNote, hp, if_neg hu]
    cases hs : (h.NoteService.GetOne t.state (lookupFirst ps "uuid")).1.2 with
    | some err => exact ⟨_, rfl, rfl, fun e he => by rw [← he]⟩
    | none =>
        cases h.MarshalNote (h.NoteService.GetOne t.state (lookupFirst ps "uuid")).1.1 with
        | error err => exact ⟨_, rfl, rfl, fun e he => by simp at he⟩
        | ok noteBytes => exact ⟨_, rfl, rfl, fun e he => by simp at he⟩
  · simp only [Handler.DeleteNote, hp, if_neg hu]
    cases hs : (h.NoteService.Delete t.state (lookupFirst ps "uuid")).1 with
    | some err => exact ⟨_, rfl, rfl, rfl⟩
    | none => exact ⟨_, rfl, rfl, rfl⟩
  · intro bodyBytes dto tagsUpdate hb hd hf
    obtain ⟨o, ho, hw, he, _⟩ :=
      Handler.PartiallyUpdateNote_reaches_service h w r t ps bodyBytes dto tagsUpdate hp hu hb
        hd hf
    exact ⟨o, ho, hw, he⟩
  · intro e hb
    simp only [Handler.PartiallyUpdateNote, hp, if_neg hu, hb]
  · intro bodyBytes e hb hd
    simp only [Handler.PartiallyUpdateNote, hp, if_neg hu, hb, hd]
  · intro bodyBytes dto e hb hd hf
    simp only [Handler.PartiallyUpdateNote, hp, if_neg hu, hb, hd, hf]
  · simp only [Handler.GetNotesByCategory, if_neg hc]
    cases hs : (h.NoteService.GetByCategoryUUID t.state
        (lookupFirst r.query "category_uuid")).1.2 with
    | some err => exact ⟨rfl, fun e he => by rw [← he]⟩
    | none =>
        cases h.MarshalNotes
          (h.NoteService.GetByCategoryUUID t.state (lookupFirst r.query "category_uuid")).1.1 with
        | error err => exact ⟨rfl, fun e he => by simp at he⟩
        | ok notesBytes => exact ⟨rfl, fun e he => by simp at he⟩

/-- C9, amended, at two inputs: a request with route parameters but no `uuid`
among them, and a `DeleteNote` of the stored note `n1`, after which the storage
has received the delete and the note is gone. -/
theorem Handler.identifier_required_witness :
    (demoHandler.DeleteNote emptyWriter ⟨some [], [], cutShort⟩ oneNoteWorld).map
        (fun o => (o.err, o.w.statuses, o.world.calls))
        = some (some (apperror.BadRequestError
            "uuid query parameter is required and must be a comma separated integers"),
          [], []) ∧
      (∃ o, demoHandler.DeleteNote emptyWriter ⟨some [("uuid", "n1")], [], cutShort⟩
          oneNoteWorld = some o ∧
        o.world = oneNoteWorld.after (ServiceCall.Delete "n1")
          (demoHandler.NoteService.Delete oneNoteWorld.state "n1").2 ∧
        o.err = (demoHandler.NoteService.Delete oneNoteWorld.state "n1").1) :=
  ⟨congrArg (Option.map fun o => (o.err, o.w.statuses, o.world.calls))
      ((Handler.identifier_required demoHandler emptyWriter ⟨some [], [], cutShort⟩
        oneNoteWorld).1 [] rfl (by decide)).2.2,
    ((Handler.identifier_required demoHandler emptyWriter ⟨some [("uuid", "n1")], [], cutShort⟩
        oneNoteWorld).2.2.1 [("uuid", "n1")] rfl (by decide)).2.1⟩

/-! ## Decoding an update payload: lemmas -/

theorem json.matchesField_self (key : String) : json.matchesField key key = true := by
  simp [json.matchesField]

theorem json.storeUpdateField_keeps_tags (st st' : UpdateNoteDTO × List String) (key : String)
    (v : json.Value) (hk : json.matchesField key "tags" = false)
    (h : json.storeUpdateField st key v = Except.ok st') : st'.1.Tags = st.1.Tags := by
  unfold json.storeUpdateField at h
  rw [hk] at h
  split at h
  · cases hs : json.storeString "UpdateNoteDTO.header" st.1.Header v <;>
      simp [hs, Except.map] at h
    rw [← h]
  · split at h
    · cases hs : json.storeString "UpdateNoteDTO.body" st.1.Body v <;>
        simp [hs, Except.map] at h
      rw [← h]
    · split at h
      · cases hs : json.storeString "UpdateNoteDTO.category_uuid" st.1.CategoryUUID v <;>
          simp [hs, Except.map] at h
        rw [← h]
      · simp at h
        rw [← h]

theorem json.storeMembers_keeps_tags (members : List (String × json.Value)) :
    ∀ (st st' : UpdateNoteDTO × List String),
      (∀ kv ∈ members, json.matchesField kv.1 "tags" = false) →
      json.storeMembers json.storeUpdateField members st = Except.ok st' →
      st'.1.Tags = st.1.Tags := by
  induction members with
  | nil =>
      intro st st' _ h
      simp [json.storeMembers] at h
      rw [← h]
  | cons kv rest ih =>
      intro st st' hk h
      obtain ⟨key, v⟩ := kv
      simp only [json.storeMembers] at h
      cases hs : json.storeUpdateField st key v with
      | error err => simp [hs] at h
      | ok mid =>
          simp only [hs] at h
          have h1 := json.storeUpdateField_keeps_tags st mid key v
            (hk (key, v) (List.mem_cons_self _ _)) hs
          have h2 := ih mid st' (fun kv hkv => hk kv (List.mem_cons_of_mem _ hkv)) h
          rw [h2, h1]

theorem json.decodeUpdateNoteDTO_no_tags (v : json.Value) (dto : UpdateNoteDTO)
    (hk : ∀ kv ∈ v.members, json.matchesField kv.1 "tags" = false)
    (hd : json.decodeUpdateNoteDTO v = Except.ok dto) : dto.Tags = [] := by
  cases v with
  | null =>
      simp [json.decodeUpdateNoteDTO] at hd
      rw [← hd]
  | object members =>
      simp only [json.decodeUpdateNoteDTO] at hd
      cases hs : json.storeMembers json.storeUpdateField members (⟨"", "", "", []⟩, []) with
      | error err => simp [hs, Except.map] at hd
      | ok st =>
          simp [hs, Except.map] at hd
          rw [← hd]
          exact json.storeMembers_keeps_tags members _ st hk hs
  | bool b => simp [json.decodeUpdateNoteDTO] at hd
  | number lit inRange => simp [json.decodeUpdateNoteDTO] at hd
  | string s => simp [json.decodeUpdateNoteDTO] at hd
  | array elems => simp [json.decodeUpdateNoteDTO] at hd

theorem json.decodeMap_ok (v : json.Value) (data : List (String × json.Value))
    (h : json.decodeMap v = Except.ok data) : data = v.members := by
  cases v with
  | null =>
      simp [json.decodeMap] at h
      rw [h]
      rfl
  | object members =>
      simp only [json.decodeMap] at h
      cases hr : json.rangeErrorMembers members with
      | some err => simp [hr] at h
      | none =>
          simp [hr] at h
          rw [h]
          rfl
  | bool b => simp [json.decodeMap] at h
  | number lit inRange => simp [json.decodeMap] at h
  | string s => simp [json.decodeMap] at h
  | array elems => simp [json.decodeMap] at h

theorem json.hasKey_false_of_no_match (data : List (String × json.Value))
    (hk : ∀ kv ∈ data, json.matchesField kv.1 "tags" = false) :
    json.hasKey data "tags" = false := by
  simp only [json.hasKey, List.any_eq_false]
  intro kv hkv hkey
  have := hk kv hkv
  rw [of_decide_eq_true hkey, json.matchesField_self] at this
  exact absurd this (by decide)

theorem service.classify_eq_none (text : String) (o : Option GoError)
    (h : service.classify text o = none) : o = none := by
  cases o with
  | none => rfl
  | some err =>
      by_cases hnf : errors.Is err apperror.ErrNotFound = true <;>
        simp [service.classify, hnf] at h

/-- The flag of `PartiallyUpdateNote` on a body that is the text of the JSON value
`v`, decoded into `dto`, when the second decoding is not needed or succeeds. -/
theorem Handler.tagsUpdateFlag_text (v : json.Value) (dto : UpdateNoteDTO)
    (hm : dto.Tags ≠ [] ∨ ∃ data, json.decodeMap v = Except.ok data) :
    Handler.tagsUpdateFlag (Payload.text v) dto
      = Except.ok (decide (dto.Tags ≠ []) || json.hasKey v.members "tags") := by
  by_cases hl : dto.Tags = []
  · rcases hm with hne | ⟨data, hdata⟩
    · exact absurd hl hne
    · have hmem := json.decodeMap_ok v data hdata
      subst hmem
      by_cases hkey : json.hasKey v.members "tags" = true <;>
        simp [Handler.tagsUpdateFlag, json.UnmarshalMap, hdata, hl, hkey]
  · have hlen : ¬ dto.Tags.length = 0 := fun h0 => hl (List.length_eq_zero.mp h0)
    simp [Handler.tagsUpdateFlag, hl, hlen]

/-- The PATCH handler over the service, once the service is reached and the
service's guard lets the update through: the storage receives one `Update` call
with the identifier, the DTO and the flag, and the handler returns the
classified storage error. -/
theorem Handler.PartiallyUpdateNote_through_service {σ : Type} (s : service σ)
    (mn : Note → Except GoError String) (mns : List Note → Except GoError String)
    (w : ResponseWriter) (r : Request) (t : ServiceWorld (StorageWorld σ))
    (ps : List (String × String)) (bodyBytes : Payload) (dto : UpdateNoteDTO)
    (tagsUpdate : Bool) (hp : r.params = some ps) (hu : lookupFirst ps "uuid" ≠ "")
    (hb : ioutil.ReadAll r = Except.ok bodyBytes)
    (hd : json.UnmarshalUpdateNoteDTO bodyBytes = Except.ok dto)
    (hf : Handler.tagsUpdateFlag bodyBytes dto = Except.ok tagsUpdate)
    (hg : ¬ (dto.Body = "" ∧ dto.Header = "" ∧ dto.CategoryUUID = "" ∧ tagsUpdate = false)) :
    ∃ o, (noteHandler s mn mns).PartiallyUpdateNote w r t = some o ∧
      o.world.state
        = t.state.after (StorageCall.Update (lookupFirst ps "uuid") dto tagsUpdate)
            (s.storage.Update t.state.store (lookupFirst ps "uuid") dto tagsUpdate).2 ∧
      o.err = service.classify "failed to update note. error: "
        (s.storage.Update t.state.store (lookupFirst ps "uuid") dto tagsUpdate).1 := by
  obtain ⟨o, ho, hw, he, _⟩ :=
    Handler.PartiallyUpdateNote_reaches_service (noteHandler s mn mns) w r t ps bodyBytes dto
      tagsUpdate hp hu hb hd hf
  refine ⟨o, ho, ?_, ?_⟩
  · rw [hw]
    simp only [noteHandler, service.toService, service.Update, if_neg hg, ServiceWorld.after]
  · rw [he]
    simp only [noteHandler, service.toService, service.Update, if_neg hg]

/-! ## Field presence in a partial update -/

/-- C4, as stated, fails, at two PATCH requests on the stored note `n1`.  (1) For
the body with the single member `TAGS` holding the array of the one tag `a`, the
body decodes (object keys match field names without regard to letter case), the
decoded tags are not empty, and `Service.Update` is called with
`tagsUpdate = true`, although the payload object has no key `tags`.  (2) For the
body with `header` set to `X` and `x` holding the number `1e999`, the decoding
into the DTO succeeds, but the second decoding, into a map, fails on the number:
the handler returns that error and passes no flag at all, the service is not
called. -/
theorem Handler.PartiallyUpdateNote_flag_without_tags_key :
    ((demoHandler.PartiallyUpdateNote emptyWriter
          (patchOf "n1" [("TAGS", json.Value.array [json.Value.string "a"])])
          oneNoteWorld).map (fun o => o.world.calls)
        = some [ServiceCall.Update "n1" ⟨"", "", "", ["a"]⟩ true] ∧
      json.hasKey [("TAGS", json.Value.array [json.Value.string "a"])] "tags" = false) ∧
      ((json.decodeUpdateNoteDTO
          (json.Value.object [("header", json.Value.string "X"), ("x", tooLarge)])).isOk = true ∧
        (demoHandler.PartiallyUpdateNote emptyWriter
          (patchOf "n1" [("header", json.Value.string "X"), ("x", tooLarge)])
          oneNoteWorld).map (fun o => (o.err, o.world.calls))
        = some (some (json.UnmarshalTypeError "number 1e999" "float64"), [])) := by
  refine ⟨⟨by decide, by decide⟩, by decide, by decide⟩

/-- C4, amended: for every PATCH with route parameters and a non-empty uuid whose
body is the text of a JSON value that decodes into the DTO `dto`, and whose
second decoding, into a map, succeeds where the handler performs it (that is,
where the decoded tags are empty): `Service.Update` is called with that DTO and a
flag `tagsUpdate` that is true exactly when the decoded tag sequence is
non-empty or the raw payload object has the key `tags`; so the key `tags` gives
true whatever it decodes to (an empty array included), and a payload with no key
matching `tags` in any letter case gives false. -/
theorem Handler.PartiallyUpdateNote_tagsUpdate_flag {τ : Type} (h : Handler τ)
    (w : ResponseWriter) (r : Request) (t : ServiceWorld τ) (ps : List (String × String))
    (v : json.Value) (dto : UpdateNoteDTO) (hp : r.params = some ps)
    (hu : lookupFirst ps "uuid" ≠ "") (hb : r.body = Body.read (Payload.text v))
    (hd : json.decodeUpdateNoteDTO v = Except.ok dto)
    (hm : dto.Tags ≠ [] ∨ ∃ data, json.decodeMap v = Except.ok data) :
    ∃ tagsUpdate o,
      h.PartiallyUpdateNote w r t = some o ∧
        o.world = t.after (ServiceCall.Update (lookupFirst ps "uuid") dto tagsUpdate)
          (h.NoteService.Update t.state (lookupFirst ps "uuid") dto tagsUpdate).2 ∧
        o.err = (h.NoteService.Update t.state (lookupFirst ps "uuid") dto tagsUpdate).1 ∧
        (tagsUpdate = true ↔ (dto.Tags ≠ [] ∨ json.hasKey v.members "tags" = true)) ∧
        (json.hasKey v.members "tags" = true → tagsUpdate = true) ∧
        ((∀ kv ∈ v.members, json.matchesField kv.1 "tags" = false) → tagsUpdate = false) := by
  have hr : ioutil.ReadAll r = Except.ok (Payload.text v) := by
    simp only [ioutil.ReadAll, hb]
  obtain ⟨o, ho, hw, he, _⟩ :=
    Handler.PartiallyUpdateNote_reaches_service h w r t ps (Payload.text v) dto
      (decide (dto.Tags ≠ []) || json.hasKey v.members "tags") hp hu hr hd
      (Handler.tagsUpdateFlag_text v dto hm)
  refine ⟨decide (dto.Tags ≠ []) || json.hasKey v.members "tags", o, ho, hw, he, ?_, ?_, ?_⟩
  · simp
  · intro hkey
    simp [hkey]
  · intro hk
    simp [json.decodeUpdateNoteDTO_no_tags v dto hk hd, json.hasKey_false_of_no_match _ hk]

/-- C4, amended, at an input: a PATCH of note `n1` whose only member is `tags`
with an empty array; the flag is true. -/
theorem Handler.PartiallyUpdateNote_tagsUpdate_flag_witness :
    ∃ tagsUpdate o,
      demoHandler.PartiallyUpdateNote emptyWriter
          (patchOf "n1" [("tags", json.Value.array [])]) oneNoteWorld = some o ∧
        o.world = oneNoteWorld.after (ServiceCall.Update "n1" ⟨"", "", "", []⟩ tagsUpdate)
          (demoHandler.NoteService.Update oneNoteWorld.state "n1" ⟨"", "", "", []⟩
            tagsUpdate).2 ∧
        o.err = (demoHandler.NoteService.Update oneNoteWorld.state "n1" ⟨"", "", "", []⟩
          tagsUpdate).1 ∧
        (tagsUpdate = true ↔
          ((⟨"", "", "", []⟩ : UpdateNoteDTO).Tags ≠ [] ∨
            json.hasKey (json.Value.object [("tags", json.Value.array [])]).members "tags"
              = true)) ∧
        (json.hasKey (json.Value.object [("tags", json.Value.array [])]).members "tags" = true →
          tagsUpdate = true) ∧
        ((∀ kv ∈ (json.Value.object [("tags", json.Value.array [])]).members,
          json.matchesField kv.1 "tags" = false) → tagsUpdate = false) :=
  Handler.PartiallyUpdateNote_tagsUpdate_flag demoHandler emptyWriter
    (patchOf "n1" [("tags", json.Value.array [])]) oneNoteWorld [("uuid", "n1")]
    (json.Value.object [("tags", json.Value.array [])]) ⟨"", "", "", []⟩ rfl (by decide) rfl rfl
    (Or.inr ⟨_, rfl⟩)

/-- C5, as stated, fails, at four PATCH requests on the stored note `n1`.
(1) The payload with the single member `header` set to the empty string omits
`tags` and sets `header`, yet `service.Update` rejects it with
`BadRequestError("nothing to update")` and `Storage.Update` is not invoked.
(2) The payload with `TAGS` holding the tag `a` and `header` set to `X` has no
key `tags`, yet `Storage.Update` is invoked with `tagsUpdate = true`.
(3) The payload with `tags` holding the empty array and then `tags` holding the
tag `a` includes `"tags": []`, yet `Storage.Update` is invoked with the tag
sequence `a`.  (4) The payload with `x` holding the number `1e999` and `tags`
holding the empty array includes `"tags": []`, yet the second decoding fails and
`Storage.Update` is not invoked. -/
theorem Handler.PartiallyUpdateNote_empty_header_rejected :
    ((demoHandler.PartiallyUpdateNote emptyWriter
          (patchOf "n1" [("header", json.Value.string "")]) oneNoteWorld).map
          (fun o => (o.err, o.world.calls, o.world.state.calls))
        = some (some (apperror.BadRequestError "nothing to update"),
            [ServiceCall.Update "n1" ⟨"", "", "", []⟩ false], [])) ∧
      (json.hasKey [("TAGS", json.Value.array [json.Value.string "a"]),
            ("header", json.Value.string "X")] "tags" = false ∧
        (demoHandler.PartiallyUpdateNote emptyWriter
          (patchOf "n1" [("TAGS", json.Value.array [json.Value.string "a"]),
            ("header", json.Value.string "X")]) oneNoteWorld).map
          (fun o => o.world.state.calls)
        = some [StorageCall.Update "n1" ⟨"X", "", "", ["a"]⟩ true]) ∧
      ((demoHandler.PartiallyUpdateNote emptyWriter
          (patchOf "n1" [("tags", json.Value.array []),
            ("tags", json.Value.array [json.Value.string "a"])]) oneNoteWorld).map
          (fun o => o.world.state.calls)
        = some [StorageCall.Update "n1" ⟨"", "", "", ["a"]⟩ true]) ∧
      ((demoHandler.PartiallyUpdateNote emptyWriter
          (patchOf "n1" [("x", tooLarge), ("tags", json.Value.array [])]) oneNoteWorld).map
          (fun o => (o.err, o.world.calls, o.world.state.calls))
        = some (some (json.UnmarshalTypeError "number 1e999" "float64"), [], [])) := by
  refine ⟨by decide, ⟨by decide, by decide⟩, by decide, by decide⟩

/-- C5, amended: through the handler and the service, for a PATCH with route
parameters and a non-empty uuid whose payload object passes both decodings of
the handler and decodes to an empty tag sequence.  (1) If the payload has the key
`tags` (as `"tags": []` alone does), the request is not rejected as a bad
request and `Storage.Update` is invoked once, with `tagsUpdate = true` and the
empty tag sequence; over a storage meeting the section 4.3 contract, a
successful request leaves the note with no tags.  (2) If the payload has no key
`tags` and at least one of header, body, category_uuid decodes to a non-empty
string, `Storage.Update` is invoked once, with `tagsUpdate = false`; over such a
storage, a successful request leaves the note's tags as they were. -/
theorem Handler.PartiallyUpdateNote_tags_presence {σ : Type} (s : service σ)
    (mn : Note → Except GoError String) (mns : List Note → Except GoError String)
    (tagsOf : σ → String → Option (List String)) (hs : s.storage.MeetsTagsContract tagsOf)
    (w : ResponseWriter) (r : Request) (t : ServiceWorld (StorageWorld σ))
    (ps : List (String × String)) (members : List (String × json.Value)) (dto : UpdateNoteDTO)
    (hp : r.params = some ps) (hu : lookupFirst ps "uuid" ≠ "")
    (hb : r.body = Body.read (Payload.text (json.Value.object members)))
    (hd : json.decodeUpdateNoteDTO (json.Value.object members) = Except.ok dto)
    (hm : ∃ data, json.decodeMap (json.Value.object members) = Except.ok data)
    (ht : dto.Tags = []) :
    (json.hasKey members "tags" = true →
        ∃ o, (noteHandler s mn mns).PartiallyUpdateNote w r t = some o ∧
          o.world.state
            = t.state.after (StorageCall.Update (lookupFirst ps "uuid") dto true)
                (s.storage.Update t.state.store (lookupFirst ps "uuid") dto true).2 ∧
          (∀ e, o.err = some e → apperror.isBadRequest e = false) ∧
          (o.err = none → tagsOf o.world.state.store (lookupFirst ps "uuid") = some [])) ∧
      (json.hasKey members "tags" = false →
        (dto.Header ≠ "" ∨ dto.Body ≠ "" ∨ dto.CategoryUUID ≠ "") →
        ∃ o, (noteHandler s mn mns).PartiallyUpdateNote w r t = some o ∧
          o.world.state
            = t.state.after (StorageCall.Update (lookupFirst ps "uuid") dto false)
                (s.storage.Update t.state.store (lookupFirst ps "uuid") dto false).2 ∧
          (o.err = none →
            tagsOf o.world.state.store (lookupFirst ps "uuid")
              = tagsOf t.state.store (lookupFirst ps "uuid"))) := by
  have hr : ioutil.ReadAll r = Except.ok (Payload.text (json.Value.object members)) := by
    simp only [ioutil.ReadAll, hb]
  have hflag := Handler.tagsUpdateFlag_text (json.Value.object members) dto (Or.inr hm)
  simp only [json.Value.members, ht, ne_eq, not_true_eq_false, decide_False,
    Bool.false_or] at hflag
  refine ⟨fun hkey => ?_, fun hkey hne => ?_⟩
  · rw [hkey] at hflag
    obtain ⟨o, ho, hw, he⟩ := Handler.PartiallyUpdateNote_through_service s mn mns w r t ps _
      dto true hp hu hr hd hflag (by simp)
    refine ⟨o, ho, hw, fun e hee => ?_, fun hnone => ?_⟩
    · rw [he] at hee
      exact service.classify_not_badRequest _ _ e hee
    · rw [he] at hnone
      obtain ⟨old, _, hnew⟩ := hs t.state.store (lookupFirst ps "uuid") dto true
        (service.classify_eq_none _ _ hnone)
      rw [hw]
      simpa [StorageWorld.after, ht] using hnew
  · rw [hkey] at hflag
    have hg : ¬ (dto.Body = "" ∧ dto.Header = "" ∧ dto.CategoryUUID = "" ∧ false = false) := by
      rintro ⟨h1, h2, h3, _⟩
      rcases hne with h | h | h
      · exact h h2
      · exact h h1
      · exact h h3
    obtain ⟨o, ho, hw, he⟩ := Handler.PartiallyUpdateNote_through_service s mn mns w r t ps _
      dto false hp hu hr hd hflag hg
    refine ⟨o, ho, hw, fun hnone => ?_⟩
    rw [he] at hnone
    obtain ⟨old, hold, hnew⟩ := hs t.state.store (lookupFirst ps "uuid") dto false
      (service.classify_eq_none _ _ hnone)
    rw [hw, hold]
    simpa [StorageWorld.after] using hnew

/-- The in-memory storage meets the tags part of the update contract. -/
theorem memStorage_meetsTagsContract (shortBody : String → String) :
    (memStorage shortBody).MeetsTagsContract MemStore.tagsOf := by
  intro st uuid dto tagsUpdate hok
  simp only [memStorage] at hok ⊢
  cases hfind : st.find uuid with
  | none => simp [hfind] at hok
  | some n =>
      refine ⟨n.Tags, by simp [MemStore.tagsOf, hfind], ?_⟩
      simp only [hfind, MemStore.tagsOf, MemStore.find]
      have huuid : n.UUID = uuid := by
        have := List.find?_some hfind
        simpa using this
      have key : ∀ (l : List Note) (m : Note),
          List.find? (fun n => decide (n.UUID = uuid)) l = some m →
          List.find? (fun n => decide (n.UUID = uuid))
              (l.map fun n => if n.UUID = uuid then MemStore.apply shortBody dto tagsUpdate n
                else n)
            = some (MemStore.apply shortBody dto tagsUpdate m) := by
        intro l
        induction l with
        | nil => intro m hm; simp at hm
        | cons a rest ih =>
            intro m hm
            by_cases ha : a.UUID = uuid
            · have hm' : a = m := by simpa [List.find?, ha] using hm
              subst hm'
              have hap : (MemStore.apply shortBody dto tagsUpdate a).UUID = uuid := ha
              simp only [List.map, if_pos ha, List.find?, hap, decide_True]
            · simp only [List.find?, ha, decide_False] at hm
              simp only [List.map, ha, if_false, List.find?, decide_False]
              exact ih m hm
      rw [key st.notes n hfind]
      simp [MemStore.apply]

/-- C5, amended, at two inputs: on the stored note `n1`, which has the tag `t`,
a PATCH with the payload `"tags": []` alone, after which the note has no tags,
and a PATCH setting only the header to `New`, after which it still has the tag
`t`. -/
theorem Handler.PartiallyUpdateNote_tags_presence_witness :
    (∃ o, demoHandler.PartiallyUpdateNote emptyWriter
          (patchOf "n1" [("tags", json.Value.array [])]) oneNoteWorld = some o ∧
        o.world.state = oneNoteWorld.state.after (StorageCall.Update "n1" ⟨"", "", "", []⟩ true)
          ((memStorage id).Update oneNoteWorld.state.store "n1" ⟨"", "", "", []⟩ true).2 ∧
        (∀ e, o.err = some e → apperror.isBadRequest e = false) ∧
        (o.err = none → MemStore.tagsOf o.world.state.store "n1" = some [])) ∧
      (∃ o, demoHandler.PartiallyUpdateNote emptyWriter
          (patchOf "n1" [("header", json.Value.string "New")]) oneNoteWorld = some o ∧
        o.world.state
          = oneNoteWorld.state.after (StorageCall.Update "n1" ⟨"New", "", "", []⟩ false)
            ((memStorage id).Update oneNoteWorld.state.store "n1" ⟨"New", "", "", []⟩ false).2 ∧
        (o.err = none →
          MemStore.tagsOf o.world.state.store "n1"
            = MemStore.tagsOf oneNoteWorld.state.store "n1")) :=
  ⟨(Handler.PartiallyUpdateNote_tags_presence ⟨memStorage id, id⟩ _ _ MemStore.tagsOf
      (memStorage_meetsTagsContract id) emptyWriter
      (patchOf "n1" [("tags", json.Value.array [])]) oneNoteWorld [("uuid", "n1")]
      [("tags", json.Value.array [])] ⟨"", "", "", []⟩ rfl (by decide) rfl rfl ⟨_, rfl⟩ rfl).1
      (by decide),
    (Handler.PartiallyUpdateNote_tags_presence ⟨memStorage id, id⟩ _ _ MemStore.tagsOf
      (memStorage_meetsTagsContract id) emptyWriter
      (patchOf "n1" [("header", json.Value.string "New")]) oneNoteWorld [("uuid", "n1")]
      [("header", json.Value.string "New")] ⟨"New", "", "", []⟩ rfl (by decide) rfl rfl
      ⟨_, rfl⟩ rfl).2 (by decide) (Or.inl (by decide))⟩
